import Mathlib

/-!
Shallow embedding of `src/btree/rec_evict.c` (WiredTiger eviction and
reconciliation-commit core) and proofs about its behaviour.

Modelling conventions:
* Machine pointers to pages are modelled by natural-number page ids.
* The `WT_REF` a parent holds for a child (its `state`, `page` and `addr`
  fields) is stored in the child's own `PageData`, since page and ref are in
  bijection during an eviction.
* External collaborators (`__wt_rec_write`, `__wt_bm_free`, `__wt_page_out`,
  `__wt_rec_track_wrapup`) are modelled as events recorded in a trace; the
  outcome of a reconciliation write is supplied by an oracle (`WriteRes`).
* General recursion over the page tree is expressed with an explicit fuel
  parameter; call sites pass `psize t + 1`, which is proved sufficient, so
  `none` results only model genuine divergence (the `WT_REC_WAIT` spin).
* C return codes are `Int`: `0` success, `1` the generic "give up" used by
  `__hazard_exclusive` and `__rec_excl_page`, `WT_ERROR` the library error.
-/

set_option maxHeartbeats 1000000

namespace RecEvict

/-- The four `WT_REF_*` page states (`WT_REF_DISK`, `WT_REF_MEM`,
`WT_REF_LOCKED`, `WT_REF_READING`). -/
inductive RefState where
  | disk
  | mem
  | locked
  | reading
  deriving DecidableEq, Repr

/-- Page types `WT_PAGE_ROW_LEAF`, `WT_PAGE_COL_LEAF`, `WT_PAGE_ROW_INT`,
`WT_PAGE_COL_INT`. -/
inductive PageType where
  | rowLeaf
  | colLeaf
  | rowInt
  | colInt
  deriving DecidableEq, Repr

/-- The reconciliation-outcome portion of `page->flags`
(`F_ISSET(page, WT_PAGE_REC_MASK)`): reconciliation stores at most one of
`WT_PAGE_REC_EMPTY`, `WT_PAGE_REC_REPLACE`, `WT_PAGE_REC_SPLIT`,
`WT_PAGE_REC_SPLIT_MERGE`, so the mask register is modelled as one of five
values. -/
inductive RecFlag where
  | recNone
  | recEmpty
  | recReplace
  | recSplit
  | recSplitMerge
  deriving DecidableEq, Repr

/-- `WT_PAGE_COL_INT`/`WT_PAGE_ROW_INT` switch arms of the source. -/
def isInternal : PageType → Bool
  | PageType.rowInt => true
  | PageType.colInt => true
  | _ => false

/-- A `WT_ADDR`: on-disk address cookie plus size. -/
structure WTAddr where
  addr : Nat
  size : Nat
  deriving DecidableEq, Repr

/-- Per-page data: the page's own fields together with the fields of the
parent `WT_REF` that points at it.

* `id` — the page's address (identity, used by the hazard array),
* `ptype` — `page->type`,
* `state` — `page->ref->state`,
* `refPage` — `page->ref->page` (`some id` when it points at a page),
* `refAddr`/`offPage` — `page->ref->addr` and whether
  `__wt_off_page(page->parent, addr)` holds (separately heap-allocated),
* `flags` — `F_ISSET(page, WT_PAGE_REC_MASK)`,
* `modified` — `__wt_page_is_modified(page)`,
* `hasModify` — `page->modify != NULL`,
* `replace`/`splitId` — the `mod->u.replace` / `mod->u.split` union content,
* `readGen` — `page->read_gen`. -/
structure PageData where
  id : Nat
  ptype : PageType
  state : RefState
  refPage : Option Nat
  refAddr : Option WTAddr
  offPage : Bool
  flags : RecFlag
  modified : Bool
  hasModify : Bool
  replace : WTAddr
  splitId : Nat
  readGen : Nat
  deriving DecidableEq, Repr

mutual

/-- An in-memory page subtree: the page's data and the pages its `WT_REF`
slots reference (in `WT_REF_FOREACH` slot order). -/
inductive Page where
  | mk (d : PageData) (kids : PageList)

/-- A list of child pages (one per `WT_REF` slot). -/
inductive PageList where
  | pnil
  | pcons (p : Page) (rest : PageList)

end

/-- `page` fields of a tree node. -/
def Page.data : Page → PageData
  | Page.mk d _ => d

/-- Child list of a tree node. -/
def Page.kids : Page → PageList
  | Page.mk _ ks => ks

mutual

/-- Size of a page tree, used as recursion fuel at call sites. -/
def Page.psize : Page → Nat
  | Page.mk _ kids => 1 + kids.psize

/-- Size of a child list, used as recursion fuel at call sites. -/
def PageList.psize : PageList → Nat
  | PageList.pnil => 1
  | PageList.pcons p rest => 1 + p.psize + rest.psize

end

/-- Observable calls to external collaborators and stores into the parent
reference, in program order. `setState` is a plain volatile store,
`publishState` is a `WT_PUBLISH` store. -/
inductive Ev where
  | recWrite (id : Nat)
  | trackWrapup (id : Nat)
  | pageOut (id : Nat)
  | bmFree (addr : Nat) (size : Nat)
  | freeRefAddr
  | setRefAddr (addr : Nat) (size : Nat)
  | setRefPage (v : Option Nat)
  | setState (s : RefState)
  | publishState (s : RefState)
  deriving DecidableEq, Repr

/-- The `WT_BTREE` root fields used by root eviction: `root_page` (id of the
resident root or `none`), `root_addr.addr`/`root_addr.size`, and the
`root_update` flag. -/
structure BtreeSt where
  rootPage : Option Nat
  rootAddrPtr : Option Nat
  rootAddrSize : Nat
  rootUpdate : Bool
  deriving DecidableEq, Repr

/-- Oracle for one `__wt_rec_write` call: the rec flag it sets, the
`mod->u.replace` cookie and the `mod->u.split` page it populates. -/
structure WriteRes where
  flags : RecFlag
  repl : WTAddr
  split : Page

/-- Modelled from the spec: `WT_ERROR`, the library's generic error return
(declared in the public header, which is not under `src/`); a negative
code, in particular distinct from the `0` and `1` returns used in
`rec_evict.c`. -/
def WT_ERROR : Int := -31802

/-- Modelled from the spec: the errno (`ENOMEM`) with which a failed
`__wt_calloc` is propagated; any nonzero value; not under `src/`. -/
def ENOMEM : Int := 12

/-- Insert into a sorted list of page addresses (the comparator of
`__hazard_qsort_cmp`: plain order on page addresses). -/
def insertSorted (x : Nat) : List Nat → List Nat
  | [] => [x]
  | y :: ys => if x ≤ y then x :: y :: ys else y :: insertSorted x ys

/-- Sorting by page address (the `qsort` call of `__hazard_copy`). -/
def sortNats : List Nat → List Nat
  | [] => []
  | x :: xs => insertSorted x (sortNats xs)

/-- `__hazard_copy`: walk the connection-wide hazard array once, keep the
non-null `page` entries (compaction), and sort them by page address. -/
def __hazard_copy (conn : List (Option Nat)) : List Nat :=
  sortNats (conn.filterMap id)

/-- `__hazard_exclusive`: store `WT_REF_LOCKED` into `ref->state`, take a
hazard snapshot, and search it for `ref->page` (the `bsearch` over the
sorted snapshot decides membership).  If the page is not found, return `0`
with the ref left `LOCKED`.  If it is found and `force` is set the C code
yields and retries forever against our (fixed) hazard array, modelled as
`none`; otherwise store `WT_REF_MEM` back and return `1` (busy).  The
`entry` argument records the asserted precondition
`ref->state == WT_REF_MEM || ref->state == WT_REF_LOCKED`; the code never
reads it back. -/
def __hazard_exclusive (hz : List (Option Nat)) (pid : Nat) (entry : RefState)
    (force : Bool) : Option (Int × RefState) :=
  let _ := entry
  let snap := __hazard_copy hz
  if snap.contains pid then
    if force then none
    else some (1, RefState.mem)
  else some (0, RefState.locked)

/-- The second, careful merge test of `__rec_excl_page`: merge-split pages
are always acceptable; split or empty pages only when clean; anything else
returns `1`. -/
def mergeTest (d : PageData) : Int :=
  if d.flags = RecFlag.recSplitMerge then 0
  else if (d.flags = RecFlag.recSplit ∨ d.flags = RecFlag.recEmpty) ∧
      d.modified = false then 0
  else 1

/-- `__rec_excl_page`: the cheap test (the child must carry at least one of
`EMPTY`/`SPLIT`/`SPLIT_MERGE`) runs first, before any locking; then, unless
`WT_REC_SINGLE`, exclusive access is acquired, and the careful merge test
runs.  Note that when the careful test fails the function returns `1` with
the ref still `LOCKED` — exactly as the C code does. -/
def __rec_excl_page (hz : List (Option Nat)) (single force : Bool)
    (d : PageData) : Option (Int × PageData) :=
  if d.flags = RecFlag.recEmpty ∨ d.flags = RecFlag.recSplit ∨
      d.flags = RecFlag.recSplitMerge then
    if single then some (mergeTest d, d)
    else
      match __hazard_exclusive hz d.id d.state force with
      | none => none
      | some (r, st) =>
        if r = 0 then some (mergeTest d, { d with state := st })
        else some (r, { d with state := st })
  else some (1, d)

/-- `__rec_excl`: the `WT_REF_FOREACH` walk over a parent's child slots.
`DISK` children are skipped; `LOCKED`/`READING` children abort with
`WT_ERROR`; `MEM` children go through `__rec_excl_page` and, on success,
become the new last-locked marker (`*last_pagep = page` runs only after
`WT_RET`), after which internal children are walked recursively.  Returns
the result code, the updated child list and the final marker. -/
def __rec_excl (hz : List (Option Nat)) (single force : Bool) :
    Nat → PageList → Option Nat → Option (Int × PageList × Option Nat)
  | 0, _, _ => none
  | _ + 1, PageList.pnil, last => some (0, PageList.pnil, last)
  | fuel + 1, PageList.pcons (Page.mk cd ck) rest, last =>
    match cd.state with
    | RefState.disk =>
      match __rec_excl hz single force fuel rest last with
      | none => none
      | some (r, ks, l) => some (r, PageList.pcons (Page.mk cd ck) ks, l)
    | RefState.locked =>
      some (WT_ERROR, PageList.pcons (Page.mk cd ck) rest, last)
    | RefState.reading =>
      some (WT_ERROR, PageList.pcons (Page.mk cd ck) rest, last)
    | RefState.mem =>
      match __rec_excl_page hz single force cd with
      | none => none
      | some (r, cd2) =>
        if r ≠ 0 then some (r, PageList.pcons (Page.mk cd2 ck) rest, last)
        else
          if isInternal cd2.ptype then
            match __rec_excl hz single force fuel ck (some cd2.id) with
            | none => none
            | some (r2, cks, l2) =>
              if r2 ≠ 0 then
                some (r2, PageList.pcons (Page.mk cd2 cks) rest, l2)
              else
                match __rec_excl hz single force fuel rest l2 with
                | none => none
                | some (r3, ks, l3) =>
                  some (r3, PageList.pcons (Page.mk cd2 cks) ks, l3)
          else
            match __rec_excl hz single force fuel rest (some cd2.id) with
            | none => none
            | some (r3, ks, l3) =>
              some (r3, PageList.pcons (Page.mk cd2 ck) ks, l3)

/-- The `WT_REF_FOREACH` loop of `__rec_excl_clear`, with the recursive call
on a child inlined one level (the C function is a single recursion; the
split into loop + wrapper below is semantically identical).  On a visited
child: store `WT_REF_MEM`; stop (returning `1`) when the child is the last
locked page; recurse into internal children.  `DISK` slots are skipped;
`MEM`/`READING` slots are the fatal `WT_ILLEGAL_VALUE` case; a nonzero
result from the recursion is turned into `return (1)`. -/
def __rec_excl_clear_kids :
    Nat → PageList → Option Nat → Option (Int × PageList)
  | 0, _, _ => none
  | _ + 1, PageList.pnil, _ => some (0, PageList.pnil)
  | fuel + 1, PageList.pcons (Page.mk cd ck) rest, last =>
    match cd.state with
    | RefState.disk =>
      match __rec_excl_clear_kids fuel rest last with
      | none => none
      | some (r, ks) => some (r, PageList.pcons (Page.mk cd ck) ks)
    | RefState.locked =>
      let cd2 := { cd with state := RefState.mem }
      let step : Option (Int × Page) :=
        if some cd.id = last then some (1, Page.mk cd2 ck)
        else if isInternal cd.ptype then
          match __rec_excl_clear_kids fuel ck last with
          | none => none
          | some (r, ks) => some (r, Page.mk cd2 ks)
        else some (0, Page.mk cd2 ck)
      match step with
      | none => none
      | some (r, c2) =>
        if r ≠ 0 then some (1, PageList.pcons c2 rest)
        else
          match __rec_excl_clear_kids fuel rest last with
          | none => none
          | some (r2, ks) => some (r2, PageList.pcons c2 ks)
    | RefState.mem => some (WT_ERROR, PageList.pcons (Page.mk cd ck) rest)
    | RefState.reading => some (WT_ERROR, PageList.pcons (Page.mk cd ck) rest)

/-- `__rec_excl_clear` on the top page of a subtree: store `WT_REF_MEM`
into its ref, stop if it is the last locked page, otherwise release the
child slots of an internal page in the same order they were locked. -/
def __rec_excl_clear (fuel : Nat) (p : Page) (last : Option Nat) :
    Option (Int × Page) :=
  match p with
  | Page.mk d kids =>
    let d2 := { d with state := RefState.mem }
    if some d.id = last then some (1, Page.mk d2 kids)
    else if isInternal d.ptype then
      match __rec_excl_clear_kids fuel kids last with
      | none => none
      | some (r, ks) => some (r, Page.mk d2 ks)
    else some (0, Page.mk d2 kids)

/-- `__rec_discard_page`: run `__wt_rec_track_wrapup` iff the page has a
`modify` structure, then hand the page to `__wt_page_out`. -/
def __rec_discard_page (d : PageData) : List Ev :=
  (if d.hasModify then [Ev.trackWrapup d.id] else []) ++ [Ev.pageOut d.id]

/-- The `WT_REF_FOREACH` loop of `__rec_discard` with the recursive call on
a child inlined one level: every child slot whose state is not `DISK` is a
page merged into the evicted page and is discarded recursively. -/
def __rec_discard_kids : Nat → PageList → Option (List Ev)
  | 0, _ => none
  | _ + 1, PageList.pnil => some []
  | fuel + 1, PageList.pcons (Page.mk cd ck) rest =>
    if cd.state ≠ RefState.disk then
      let step : Option (List Ev) :=
        if isInternal cd.ptype then
          match __rec_discard_kids fuel ck with
          | none => none
          | some evs => some (evs ++ __rec_discard_page cd)
        else some (__rec_discard_page cd)
      match step with
      | none => none
      | some evs =>
        match __rec_discard_kids fuel rest with
        | none => none
        | some evs2 => some (evs ++ evs2)
    else __rec_discard_kids fuel rest

/-- `__rec_discard`: discard the pages merged into an evicted internal
page, then the page itself; a leaf is discarded directly. -/
def __rec_discard (fuel : Nat) (p : Page) : Option (List Ev) :=
  match p with
  | Page.mk d kids =>
    if isInternal d.ptype then
      match __rec_discard_kids fuel kids with
      | none => none
      | some evs => some (evs ++ __rec_discard_page d)
    else some (__rec_discard_page d)

/-- The subtree-walk half of `__rec_review`: walk the subtree of an internal
candidate, and on failure release exactly the locked prefix, up to and
including the last-locked marker (`ret != 0 && !LF_ISSET(WT_REC_SINGLE) &&
last_page != NULL`). -/
def reviewWalk (hz : List (Option Nat)) (single force : Bool) (d1 : PageData)
    (last1 : Option Nat) (kids : PageList) : Option (Int × Page) :=
  match (if isInternal d1.ptype then
          __rec_excl hz single force (kids.psize + 1) kids last1
        else some (0, kids, last1)) with
  | none => none
  | some (r2, ks2, l2) =>
    if r2 ≠ 0 ∧ single = false ∧ l2 ≠ none then
      match __rec_excl_clear ((Page.mk d1 ks2).psize + 1)
          (Page.mk d1 ks2) l2 with
      | none => none
      | some (_, p3) => some (r2, p3)
    else some (r2, Page.mk d1 ks2)

/-- `__rec_review`: acquire the candidate's own exclusivity (unless
`WT_REC_SINGLE`), record it as the last locked page, then run `reviewWalk`
above. -/
def __rec_review (hz : List (Option Nat)) (single force : Bool) (p : Page) :
    Option (Int × Page) :=
  match p with
  | Page.mk d kids =>
    if single then reviewWalk hz single force d none kids
    else
      match __hazard_exclusive hz d.id d.state force with
      | none => none
      | some (r, st) =>
        if r ≠ 0 then some (r, Page.mk { d with state := st } kids)
        else reviewWalk hz single force { d with state := st } (some d.id) kids

/-- `__rec_page_clean_update`: null `ref->page`, store `WT_REF_DISK` (a
plain store, the field is volatile), then `__rec_discard_page`. -/
def __rec_page_clean_update (p : Page) : Int × Page × List Ev :=
  match p with
  | Page.mk d kids =>
    let d2 := { d with refPage := none, state := RefState.disk }
    (0, Page.mk d2 kids,
      [Ev.setRefPage none, Ev.setState RefState.disk] ++ __rec_discard_page d2)

/-- `__rec_root_clean_update`: clear `btree->root_page`, then
`__rec_discard_page`. -/
def __rec_root_clean_update (bt : BtreeSt) (p : Page) :
    Int × BtreeSt × List Ev :=
  (0, { bt with rootPage := none }, __rec_discard_page p.data)

/-- `__rec_page_dirty_update`: dispatch on the reconciliation mask.
`EMPTY` undoes the exclusivity (unless `WT_REC_SINGLE`) and returns without
discarding; `REPLACE` frees a non-null, off-page old address, allocates a
new `WT_ADDR` (failure modelled by `allocOk = false`, propagated as
`ENOMEM` after the free already happened), fills it from `mod->u.replace`,
nulls `ref->page` and publishes `WT_REF_DISK`, then discards; `SPLIT`
points `ref->page` at `mod->u.split` and publishes `WT_REF_MEM`, then
discards; anything else is `WT_ILLEGAL_VALUE`. -/
def __rec_page_dirty_update (single allocOk : Bool) (p : Page) :
    Option (Int × Page × List Ev) :=
  match p with
  | Page.mk d kids =>
    match d.flags with
    | RecFlag.recEmpty =>
      if single then some (0, Page.mk d kids, [])
      else
        match __rec_excl_clear ((Page.mk d kids).psize + 1)
            (Page.mk d kids) none with
        | none => none
        | some (_, p2) => some (0, p2, [])
    | RecFlag.recReplace =>
      let doFree : Bool := d.refAddr.isSome && d.offPage
      let evs1 : List Ev := if doFree then [Ev.freeRefAddr] else []
      let d1 := if doFree then { d with refAddr := none } else d
      if allocOk = false then some (ENOMEM, Page.mk d1 kids, evs1)
      else
        let d2 : PageData :=
          { d1 with refAddr := some d.replace, offPage := true,
                    refPage := none, state := RefState.disk }
        match __rec_discard ((Page.mk d2 kids).psize + 1) (Page.mk d2 kids) with
        | none => none
        | some devs =>
          some (0, Page.mk d2 kids,
            evs1 ++ [Ev.setRefAddr d.replace.addr d.replace.size,
                     Ev.setRefPage none,
                     Ev.publishState RefState.disk] ++ devs)
    | RecFlag.recSplit =>
      let d2 : PageData :=
        { d with refPage := some d.splitId, state := RefState.mem }
      match __rec_discard ((Page.mk d2 kids).psize + 1) (Page.mk d2 kids) with
      | none => none
      | some devs =>
        some (0, Page.mk d2 kids,
          [Ev.setRefPage (some d.splitId),
           Ev.publishState RefState.mem] ++ devs)
    | _ => some (WT_ERROR, Page.mk d kids, [])

/-- `__rec_root_addr_update`: free (through the block manager) a previously
created root address, set `root_update`, and install the new address. -/
def __rec_root_addr_update (bt : BtreeSt) (addr : Option Nat) (size : Nat) :
    BtreeSt × List Ev :=
  let evs : List Ev :=
    match bt.rootAddrPtr with
    | some a => [Ev.bmFree a bt.rootAddrSize]
    | none => []
  ({ bt with rootAddrPtr := addr, rootAddrSize := size, rootUpdate := true },
   evs)

/-- The non-`SPLIT` arms of `__rec_root_dirty_update`'s switch: `EMPTY`
clears the root address and the root page; `REPLACE` installs the
replacement address and clears the root page; the remaining flag values
fall through the switch doing nothing. -/
def rootNonSplitStep (bt : BtreeSt) (d : PageData) : BtreeSt × List Ev :=
  match d.flags with
  | RecFlag.recEmpty =>
    let u := __rec_root_addr_update bt none 0
    ({ u.1 with rootPage := none }, u.2)
  | RecFlag.recReplace =>
    let u := __rec_root_addr_update bt (some d.replace.addr) d.replace.size
    ({ u.1 with rootPage := none }, u.2)
  | _ => (bt, [])

/-- Modify-init plus `F_CLR(next, WT_PAGE_REC_MASK)` plus the `__wt_rec_write`
oracle application for a written page: the write sets the rec flags and the
modify content from the oracle, leaving the page clean. -/
def applyWrite (w : WriteRes) (d : PageData) : PageData :=
  { d with flags := w.flags, modified := false, hasModify := true,
           replace := w.repl, splitId := w.split.data.id }

/-- `__rec_root_dirty_update`: dispatch on the root's reconciliation mask;
on `SPLIT` take `mod->u.split` as the next root, discard the old root, make
the new root look like a modified page (clearing its rec flags), write it
(consuming one oracle entry) and recurse.  The oracle list supplies the
outcome of each successive `__wt_rec_write`; an exhausted oracle on a
`SPLIT` leaves the next write unmodelled (`none`). -/
def __rec_root_dirty_update :
    List WriteRes → BtreeSt → Page → Page → Option (Int × BtreeSt × List Ev)
  | [], bt, Page.mk d kids, _ =>
    if d.flags = RecFlag.recSplit then none
    else
      let u := rootNonSplitStep bt d
      match __rec_discard ((Page.mk d kids).psize + 1) (Page.mk d kids) with
      | none => none
      | some devs => some (0, u.1, u.2 ++ devs)
  | w :: rest, bt, Page.mk d kids, sp =>
    if d.flags = RecFlag.recSplit then
      match __rec_discard ((Page.mk d kids).psize + 1) (Page.mk d kids) with
      | none => none
      | some devs =>
        let nd0 : PageData :=
          { sp.data with flags := RecFlag.recNone, modified := true,
                         hasModify := true }
        let nd := applyWrite w nd0
        match __rec_root_dirty_update rest bt (Page.mk nd sp.kids) w.split with
        | none => none
        | some (r, bt2, evs2) =>
          some (r, bt2, devs ++ Ev.recWrite sp.data.id :: evs2)
    else
      let u := rootNonSplitStep bt d
      match __rec_discard ((Page.mk d kids).psize + 1) (Page.mk d kids) with
      | none => none
      | some devs => some (0, u.1, u.2 ++ devs)

/-- The "update the parent and discard the page" dispatch of
`__wt_rec_evict` (cleanliness of `F_ISSET(page, WT_PAGE_REC_MASK)` crossed
with `WT_PAGE_IS_ROOT`). -/
def evictUpdate (single allocOk isRoot : Bool) (oracle : List WriteRes)
    (w : WriteRes) (bt : BtreeSt) (p2 : Page) :
    Option (Int × Page × BtreeSt × List Ev) :=
  if p2.data.flags = RecFlag.recNone then
    if isRoot then
      match __rec_root_clean_update bt p2 with
      | (r, bt2, evs) => some (r, p2, bt2, evs)
    else
      match __rec_page_clean_update p2 with
      | (r, p3, evs) => some (r, p3, bt, evs)
  else
    if isRoot then
      match __rec_root_dirty_update oracle bt p2 w.split with
      | none => none
      | some (r, bt2, evs) => some (r, p2, bt2, evs)
    else
      match __rec_page_dirty_update single allocOk p2 with
      | none => none
      | some (r, p3, evs) => some (r, p3, bt, evs)

/-- The `err:` label of `__wt_rec_evict`: on a nonzero result from the
update dispatch, release every exclusivity acquired during review (unless
`WT_REC_SINGLE`) before returning the error. -/
def evictErr (single : Bool) (evs0 : List Ev) :
    Option (Int × Page × BtreeSt × List Ev) →
      Option (Int × Page × BtreeSt × List Ev)
  | none => none
  | some (r2, p3, bt2, evs2) =>
    if r2 ≠ 0 then
      if single = false then
        match __rec_excl_clear (p3.psize + 1) p3 none with
        | none => none
        | some (_, p4) => some (r2, p4, bt2, evs0 ++ evs2)
      else some (r2, p3, bt2, evs0 ++ evs2)
    else some (r2, p3, bt2, evs0 ++ evs2)

/-- The tail of `__wt_rec_evict` after a successful review: write the page
through the oracle `w` if it is modified, dispatch the parent update, run
the `err:` unwind on failure. -/
def evictAfterReview (single allocOk isRoot : Bool) (oracle : List WriteRes)
    (w : WriteRes) (bt : BtreeSt) (p1 : Page) :
    Option (Int × Page × BtreeSt × List Ev) :=
  if p1.data.modified then
    evictErr single [Ev.recWrite p1.data.id]
      (evictUpdate single allocOk isRoot oracle w bt
        (Page.mk (applyWrite w p1.data) p1.kids))
  else evictErr single [] (evictUpdate single allocOk isRoot oracle w bt p1)

/-- `__wt_rec_evict`: the eviction controller.  Short-circuit merge-split
pages; review; write the page through the oracle `w` if it is modified;
dispatch on cleanliness × root-ness; on a dispatch error release every
exclusivity acquired during review (unless `WT_REC_SINGLE`).  Returns the
code, the updated subtree (ref fields of discarded pages survive their
page memory only for bookkeeping), the btree root state, and the trace. -/
def __wt_rec_evict (hz : List (Option Nat)) (single force : Bool)
    (w : WriteRes) (oracle : List WriteRes) (allocOk : Bool) (cacheGen : Nat)
    (isRoot : Bool) (bt : BtreeSt) (p : Page) :
    Option (Int × Page × BtreeSt × List Ev) :=
  match p with
  | Page.mk d kids =>
    if d.flags = RecFlag.recSplitMerge then
      some (0,
        Page.mk { d with readGen := cacheGen, state := RefState.mem } kids,
        bt, [])
    else
      match __rec_review hz single force (Page.mk d kids) with
      | none => none
      | some (r1, p1) =>
        if r1 ≠ 0 then some (r1, p1, bt, [])
        else evictAfterReview single allocOk isRoot oracle w bt p1

/-- Whether a chain of reconciliation outcomes — the current root's flag
followed by the flags produced by the successive oracle entries — reaches a
terminating `REPLACE` or `EMPTY` outcome. -/
def chainOk : List WriteRes → RecFlag → Bool
  | _, RecFlag.recEmpty => true
  | _, RecFlag.recReplace => true
  | [], RecFlag.recSplit => false
  | w :: rest, RecFlag.recSplit => chainOk rest w.flags
  | _, _ => false

/-- The root address installed by the last step of the root-split chain:
`REPLACE` installs the replace cookie, `EMPTY` clears the address. -/
def chainFinal : List WriteRes → RecFlag → WTAddr → Option Nat × Nat
  | _, RecFlag.recReplace, r => (some r.addr, r.size)
  | [], RecFlag.recSplit, _ => (none, 0)
  | w :: rest, RecFlag.recSplit, _ => chainFinal rest w.flags w.repl
  | _, _, _ => (none, 0)

/-- Ids of the roots consumed by the root-split chain: the current root and,
for each `SPLIT` step, the intermediate root it is replaced by. -/
def chainIds : List WriteRes → RecFlag → Nat → Page → List Nat
  | w :: rest, RecFlag.recSplit, pid, sp =>
    pid :: chainIds rest w.flags sp.data.id w.split
  | _, _, pid, _ => [pid]


/-! ### Helper lemmas -/

theorem psize_pos (p : Page) : 1 ≤ p.psize := by
  cases p with
  | mk d kids => simp [Page.psize]

theorem plist_psize_pos (ks : PageList) : 1 ≤ ks.psize := by
  cases ks with
  | pnil => simp [PageList.psize]
  | pcons p rest => simp [PageList.psize]; omega

theorem setState_self (d : PageData) (h : d.state = RefState.mem) :
    { d with state := RefState.mem } = d := by
  cases d
  simp_all

theorem hazard_inv (hz : List (Option Nat)) (pid : Nat) (st : RefState)
    (force : Bool) (r : Int) (s : RefState)
    (h : __hazard_exclusive hz pid st force = some (r, s)) :
    (r = 0 ∧ s = RefState.locked ∧ (__hazard_copy hz).contains pid = false) ∨
    (r = 1 ∧ s = RefState.mem ∧ force = false ∧
      (__hazard_copy hz).contains pid = true) := by
  simp only [__hazard_exclusive] at h
  cases hc : (__hazard_copy hz).contains pid with
  | true =>
    rw [hc, if_pos rfl] at h
    cases force with
    | true =>
      rw [if_pos rfl] at h
      exact absurd h (by simp)
    | false =>
      rw [if_neg Bool.false_ne_true] at h
      simp only [Option.some.injEq, Prod.mk.injEq] at h
      right
      exact ⟨h.1.symm, h.2.symm, rfl, rfl⟩
  | false =>
    rw [hc, if_neg Bool.false_ne_true] at h
    simp only [Option.some.injEq, Prod.mk.injEq] at h
    left
    exact ⟨h.1.symm, h.2.symm, rfl⟩

theorem excl_page_ok (hz : List (Option Nat)) (force : Bool) (cd cd2 : PageData)
    (h : __rec_excl_page hz false force cd = some (0, cd2)) :
    cd2 = { cd with state := RefState.locked } ∧ mergeTest cd = 0 ∧
      (__hazard_copy hz).contains cd.id = false := by
  simp only [__rec_excl_page] at h
  by_cases hflag : cd.flags = RecFlag.recEmpty ∨ cd.flags = RecFlag.recSplit ∨
      cd.flags = RecFlag.recSplitMerge
  · rw [if_pos hflag, if_neg Bool.false_ne_true] at h
    cases hh : __hazard_exclusive hz cd.id cd.state force with
    | none =>
      rw [hh] at h
      dsimp only at h
      exact Option.noConfusion h
    | some v =>
      obtain ⟨r, s⟩ := v
      rcases hazard_inv hz cd.id cd.state force r s hh with
        ⟨hr, hs, hc⟩ | ⟨hr, hs, hf, hc⟩
      · subst hr; subst hs
        rw [hh] at h
        dsimp only at h
        rw [if_pos rfl] at h
        simp only [Option.some.injEq, Prod.mk.injEq] at h
        exact ⟨h.2.symm, h.1, hc⟩
      · subst hr; subst hs
        rw [hh] at h
        dsimp only at h
        rw [if_neg (by norm_num)] at h
        simp only [Option.some.injEq, Prod.mk.injEq] at h
        exact absurd h.1 (by norm_num)
  · rw [if_neg hflag] at h
    simp only [Option.some.injEq, Prod.mk.injEq] at h
    exact absurd h.1 (by norm_num)


theorem discard_kids_some :
    ∀ (n : Nat) (ks : PageList), ks.psize < n →
      ∃ evs, __rec_discard_kids n ks = some evs := by
  intro n
  induction n with
  | zero => intro ks h; exact absurd h (by omega)
  | succ n ih =>
    intro ks h
    cases ks with
    | pnil => exact ⟨[], rfl⟩
    | pcons c rest =>
      obtain ⟨cd, ck⟩ := c
      simp only [PageList.psize, Page.psize] at h
      have hck : ck.psize < n := by
        have := plist_psize_pos rest
        omega
      have hrest : rest.psize < n := by
        have := plist_psize_pos ck
        omega
      obtain ⟨evs1, h1⟩ := ih ck hck
      obtain ⟨evs2, h2⟩ := ih rest hrest
      by_cases hs : cd.state = RefState.disk
      · exact ⟨evs2, by simp [__rec_discard_kids, hs, h2]⟩
      · by_cases hint : isInternal cd.ptype = true
        · exact ⟨(evs1 ++ __rec_discard_page cd) ++ evs2,
            by simp [__rec_discard_kids, hs, hint, h1, h2]⟩
        · exact ⟨__rec_discard_page cd ++ evs2,
            by simp [__rec_discard_kids, hs, hint, h2]⟩

theorem discard_some (n : Nat) (d : PageData) (kids : PageList)
    (h : kids.psize < n) :
    ∃ evs, __rec_discard n (Page.mk d kids) = some evs := by
  obtain ⟨evs1, h1⟩ := discard_kids_some n kids h
  by_cases hint : isInternal d.ptype = true
  · exact ⟨evs1 ++ __rec_discard_page d, by simp [__rec_discard, hint, h1]⟩
  · exact ⟨__rec_discard_page d, by simp [__rec_discard, hint]⟩

theorem discard_pageOut (n : Nat) (d : PageData) (kids : PageList)
    (evs : List Ev) (h : __rec_discard n (Page.mk d kids) = some evs) :
    Ev.pageOut d.id ∈ evs := by
  simp only [__rec_discard] at h
  split at h
  · cases hk : __rec_discard_kids n kids with
    | none => rw [hk] at h; exact Option.noConfusion h
    | some evs1 =>
      rw [hk] at h
      dsimp only at h
      simp only [Option.some.injEq] at h
      subst h
      simp [__rec_discard_page]
  · simp only [Option.some.injEq] at h
    subst h
    simp [__rec_discard_page]

theorem clear_kids_some :
    ∀ (n : Nat) (ks : PageList) (last : Option Nat), ks.psize < n →
      ∃ r ks2, __rec_excl_clear_kids n ks last = some (r, ks2) := by
  intro n
  induction n with
  | zero => intro ks last h; exact absurd h (by omega)
  | succ n ih =>
    intro ks last h
    cases ks with
    | pnil => exact ⟨0, PageList.pnil, rfl⟩
    | pcons c rest =>
      obtain ⟨cd, ck⟩ := c
      simp only [PageList.psize, Page.psize] at h
      have hck : ck.psize < n := by
        have := plist_psize_pos rest
        omega
      have hrest : rest.psize < n := by
        have := plist_psize_pos ck
        omega
      obtain ⟨r1, ks1, h1⟩ := ih ck last hck
      obtain ⟨r2, ks2, h2⟩ := ih rest last hrest
      cases hs : cd.state with
      | disk =>
        exact ⟨r2, PageList.pcons (Page.mk cd ck) ks2,
          by simp [__rec_excl_clear_kids, hs, h2]⟩
      | mem =>
        exact ⟨WT_ERROR, PageList.pcons (Page.mk cd ck) rest,
          by simp [__rec_excl_clear_kids, hs]⟩
      | reading =>
        exact ⟨WT_ERROR, PageList.pcons (Page.mk cd ck) rest,
          by simp [__rec_excl_clear_kids, hs]⟩
      | locked =>
        by_cases hl : some cd.id = last
        · refine ⟨1,
            PageList.pcons (Page.mk { cd with state := RefState.mem } ck) rest,
            ?_⟩
          simp [__rec_excl_clear_kids, hs, hl]
        · by_cases hint : isInternal cd.ptype = true
          · by_cases hr1 : r1 = 0
            · subst hr1
              refine ⟨r2,
                PageList.pcons (Page.mk { cd with state := RefState.mem } ks1)
                  ks2, ?_⟩
              simp [__rec_excl_clear_kids, hs, hl, hint, h1, h2]
            · refine ⟨1,
                PageList.pcons (Page.mk { cd with state := RefState.mem } ks1)
                  rest, ?_⟩
              simp [__rec_excl_clear_kids, hs, hl, hint, h1, hr1]
          · refine ⟨r2,
              PageList.pcons (Page.mk { cd with state := RefState.mem } ck)
                ks2, ?_⟩
            simp [__rec_excl_clear_kids, hs, hl, hint, h2]

theorem clear_some (n : Nat) (d : PageData) (kids : PageList)
    (last : Option Nat) (h : kids.psize < n) :
    ∃ r ks2, __rec_excl_clear n (Page.mk d kids) last =
      some (r, Page.mk { d with state := RefState.mem } ks2) := by
  by_cases hl : some d.id = last
  · exact ⟨1, kids, by simp [__rec_excl_clear, hl]⟩
  · by_cases hint : isInternal d.ptype = true
    · obtain ⟨r, ks2, h2⟩ := clear_kids_some n kids last h
      exact ⟨r, ks2, by simp [__rec_excl_clear, hl, hint, h2]⟩
    · exact ⟨0, kids, by simp [__rec_excl_clear, hl, hint]⟩


theorem review_ok_shape (hz : List (Option Nat)) (force : Bool) (d : PageData)
    (kids : PageList) (p1 : Page)
    (h : __rec_review hz false force (Page.mk d kids) = some (0, p1)) :
    (__hazard_copy hz).contains d.id = false ∧
    ((isInternal d.ptype = true ∧ ∃ ks2 l2,
        __rec_excl hz false force (kids.psize + 1) kids (some d.id) =
          some (0, ks2, l2) ∧
        p1 = Page.mk { d with state := RefState.locked } ks2) ∨
     (isInternal d.ptype = false ∧
        p1 = Page.mk { d with state := RefState.locked } kids)) := by
  simp only [__rec_review] at h
  rw [if_neg Bool.false_ne_true] at h
  cases hh : __hazard_exclusive hz d.id d.state force with
  | none => rw [hh] at h; exact Option.noConfusion h
  | some v =>
    obtain ⟨r, st⟩ := v
    rcases hazard_inv hz d.id d.state force r st hh with
      ⟨hr, hs, hc⟩ | ⟨hr, hs, hf, hc⟩
    · subst hr; subst hs
      rw [hh] at h
      dsimp only at h
      rw [if_neg (by norm_num)] at h
      refine ⟨hc, ?_⟩
      simp only [reviewWalk] at h
      dsimp only at h
      by_cases hint : isInternal d.ptype = true
      · rw [if_pos hint] at h
        cases hw : __rec_excl hz false force (kids.psize + 1) kids
            (some d.id) with
        | none => rw [hw] at h; exact Option.noConfusion h
        | some v2 =>
          obtain ⟨r2, ks2, l2⟩ := v2
          rw [hw] at h
          dsimp only at h
          by_cases hr2 : r2 = 0
          · subst hr2
            rw [if_neg (by simp)] at h
            refine Or.inl ⟨hint, ks2, l2, rfl, ?_⟩
            simp only [Option.some.injEq, Prod.mk.injEq, true_and] at h
            exact h.symm
          · by_cases hl2 : l2 = none
            · rw [if_neg (by simp [hl2])] at h
              simp only [Option.some.injEq, Prod.mk.injEq] at h
              exact absurd h.1 hr2
            · rw [if_pos ⟨hr2, trivial, hl2⟩] at h
              cases hcl : __rec_excl_clear
                  ((Page.mk { d with state := RefState.locked } ks2).psize + 1)
                  (Page.mk { d with state := RefState.locked } ks2) l2 with
              | none => rw [hcl] at h; exact Option.noConfusion h
              | some v3 =>
                obtain ⟨rr, p3⟩ := v3
                rw [hcl] at h
                dsimp only at h
                simp only [Option.some.injEq, Prod.mk.injEq] at h
                exact absurd h.1 hr2
      · rw [if_neg hint] at h
        dsimp only at h
        rw [if_neg (by simp)] at h
        simp only [Option.some.injEq, Prod.mk.injEq, true_and] at h
        exact Or.inr ⟨by simpa using hint, h.symm⟩
    · subst hr
      rw [hh] at h
      dsimp only at h
      rw [if_pos (by norm_num)] at h
      simp only [Option.some.injEq, Prod.mk.injEq] at h
      exact absurd h.1 (by norm_num)

theorem excl_clear_roundtrip :
    ∀ (n : Nat) (hz : List (Option Nat)) (force : Bool) (ks ks2 : PageList)
      (last0 l2 : Option Nat),
      __rec_excl hz false force n ks last0 = some (0, ks2, l2) →
      ∀ m, ks2.psize < m →
        __rec_excl_clear_kids m ks2 none = some (0, ks) := by
  intro n
  induction n with
  | zero => intro hz force ks ks2 last0 l2 h; exact Option.noConfusion h
  | succ n ih =>
    intro hz force ks ks2 last0 l2 h m hm
    cases ks with
    | pnil =>
      simp only [__rec_excl, Option.some.injEq, Prod.mk.injEq] at h
      obtain ⟨-, hks2, -⟩ := h
      subst hks2
      cases m with
      | zero => exact absurd hm (by simp [PageList.psize])
      | succ m => rfl
    | pcons c rest =>
      obtain ⟨cd, ck⟩ := c
      simp only [__rec_excl] at h
      cases hs : cd.state with
      | disk =>
        rw [hs] at h
        dsimp only at h
        cases hr : __rec_excl hz false force n rest last0 with
        | none => rw [hr] at h; exact Option.noConfusion h
        | some v =>
          obtain ⟨r, ksr, lr⟩ := v
          rw [hr] at h
          dsimp only at h
          simp only [Option.some.injEq, Prod.mk.injEq] at h
          obtain ⟨hr0, hks2, hl⟩ := h
          subst hr0
          subst hks2
          cases m with
          | zero => exact absurd hm (by omega)
          | succ m =>
            simp only [PageList.psize, Page.psize] at hm
            have hb : ksr.psize < m := by
              have := plist_psize_pos ck
              omega
            have ihr := ih hz force rest ksr last0 lr hr m hb
            simp [__rec_excl_clear_kids, hs, ihr]
      | locked =>
        rw [hs] at h
        dsimp only at h
        simp only [Option.some.injEq, Prod.mk.injEq] at h
        exact absurd h.1 (by norm_num [WT_ERROR])
      | reading =>
        rw [hs] at h
        dsimp only at h
        simp only [Option.some.injEq, Prod.mk.injEq] at h
        exact absurd h.1 (by norm_num [WT_ERROR])
      | mem =>
        rw [hs] at h
        dsimp only at h
        cases hp : __rec_excl_page hz false force cd with
        | none => rw [hp] at h; exact Option.noConfusion h
        | some v =>
          obtain ⟨r, cd2⟩ := v
          rw [hp] at h
          dsimp only at h
          by_cases hr : r = 0
          · subst hr
            rw [if_neg (by simp)] at h
            obtain ⟨hcd2eq, hmt, hchz⟩ := excl_page_ok hz force cd cd2 hp
            subst hcd2eq
            dsimp only at h
            by_cases hint : isInternal cd.ptype = true
            · rw [if_pos hint] at h
              cases hw1 : __rec_excl hz false force n ck (some cd.id) with
              | none => rw [hw1] at h; exact Option.noConfusion h
              | some v2 =>
                obtain ⟨r2, cks, l2x⟩ := v2
                rw [hw1] at h
                dsimp only at h
                by_cases hr2 : r2 = 0
                · subst hr2
                  rw [if_neg (by simp)] at h
                  cases hw2 : __rec_excl hz false force n rest l2x with
                  | none => rw [hw2] at h; exact Option.noConfusion h
                  | some v3 =>
                    obtain ⟨r3, ks3, l3⟩ := v3
                    rw [hw2] at h
                    dsimp only at h
                    simp only [Option.some.injEq, Prod.mk.injEq] at h
                    obtain ⟨h31, h32, h33⟩ := h
                    subst h31
                    subst h32
                    cases m with
                    | zero => exact absurd hm (by omega)
                    | succ m =>
                      simp only [PageList.psize, Page.psize] at hm
                      have hb1 : cks.psize < m := by
                        have := plist_psize_pos ks3
                        omega
                      have hb3 : ks3.psize < m := by
                        have := plist_psize_pos cks
                        omega
                      have ih1 := ih hz force ck cks (some cd.id) l2x hw1 m hb1
                      have ih3 := ih hz force rest ks3 l2x l3 hw2 m hb3
                      simp [__rec_excl_clear_kids, hint, ih1, ih3,
                        setState_self cd hs]
                · rw [if_pos hr2] at h
                  simp only [Option.some.injEq, Prod.mk.injEq] at h
                  exact absurd h.1 hr2
            · rw [if_neg hint] at h
              cases hw2 : __rec_excl hz false force n rest (some cd.id) with
              | none => rw [hw2] at h; exact Option.noConfusion h
              | some v3 =>
                obtain ⟨r3, ks3, l3⟩ := v3
                rw [hw2] at h
                dsimp only at h
                simp only [Option.some.injEq, Prod.mk.injEq] at h
                obtain ⟨h31, h32, h33⟩ := h
                subst h31
                subst h32
                cases m with
                | zero => exact absurd hm (by omega)
                | succ m =>
                  simp only [PageList.psize, Page.psize] at hm
                  have hb3 : ks3.psize < m := by
                    have := plist_psize_pos ck
                    omega
                  have ih3 := ih hz force rest ks3 (some cd.id) l3 hw2 m hb3
                  simp [__rec_excl_clear_kids, hint, ih3, setState_self cd hs]
          · rw [if_pos hr] at h
            simp only [Option.some.injEq, Prod.mk.injEq] at h
            exact absurd h.1 hr


/-! ### Claim theorems -/

/-- C5: for every page whose rec flags contain `SPLIT_MERGE`, `__wt_rec_evict`
returns OK immediately without reviewing, writing, updating the parent, or
discarding anything; its only effects are refreshing the page's read
generation from the cache clock and storing `ref.state = MEM`. -/
theorem c5_split_merge_short_circuit (hz : List (Option Nat))
    (single force : Bool) (w : WriteRes) (oracle : List WriteRes)
    (allocOk : Bool) (cacheGen : Nat) (isRoot : Bool) (bt : BtreeSt)
    (d : PageData) (kids : PageList)
    (h : d.flags = RecFlag.recSplitMerge) :
    __wt_rec_evict hz single force w oracle allocOk cacheGen isRoot bt
        (Page.mk d kids) =
      some (0,
        Page.mk { d with readGen := cacheGen, state := RefState.mem } kids,
        bt, []) := by
  simp [__wt_rec_evict, h]

/-- Witness for C5 at a concrete merge-split page. -/
theorem c5_split_merge_short_circuit_witness :
    (⟨7, PageType.rowInt, RefState.locked, some 7, none, false, RecFlag.recSplitMerge, true, true, ⟨0, 0⟩, 0, 3⟩ : PageData).flags = RecFlag.recSplitMerge ∧
    __wt_rec_evict [some 7] false false ⟨RecFlag.recNone, ⟨0, 0⟩, Page.mk ⟨9, PageType.rowLeaf, RefState.disk, none, none, false, RecFlag.recNone, false, false, ⟨0, 0⟩, 0, 0⟩ PageList.pnil⟩ [] true 42 false ⟨some 7, none, 0, false⟩
        (Page.mk ⟨7, PageType.rowInt, RefState.locked, some 7, none, false, RecFlag.recSplitMerge, true, true, ⟨0, 0⟩, 0, 3⟩ PageList.pnil) =
      some (0, Page.mk ⟨7, PageType.rowInt, RefState.mem, some 7, none, false, RecFlag.recSplitMerge, true, true, ⟨0, 0⟩, 0, 42⟩ PageList.pnil, ⟨some 7, none, 0, false⟩, []) :=
  ⟨rfl,
    (c5_split_merge_short_circuit [some 7] false false _ [] true 42 false _ _
      PageList.pnil rfl).trans rfl⟩

/-- C8 (amended): `__hazard_exclusive` stores `LOCKED` and returns OK iff
`ref.page` is absent from the snapshot (the compacted, sorted copy of the
non-null hazard-array entries); when the page is present and `force` is not
set it stores `MEM` — not necessarily the entry state — and returns busy. -/
theorem c8_hazard_exclusive_amended (hz : List (Option Nat)) (pid : Nat)
    (entry : RefState) (force : Bool)
    (hpre : entry = RefState.mem ∨ entry = RefState.locked) :
    (__hazard_exclusive hz pid entry force = some (0, RefState.locked) ↔
      (__hazard_copy hz).contains pid = false) ∧
    (force = false → (__hazard_copy hz).contains pid = true →
      __hazard_exclusive hz pid entry force = some (1, RefState.mem)) := by
  clear hpre
  constructor
  · constructor
    · intro h
      rcases hazard_inv hz pid entry force 0 RefState.locked h with
        ⟨-, -, hc⟩ | ⟨h1, -, -⟩
      · exact hc
      · exact absurd h1.symm (by norm_num)
    · intro hc
      simp only [__hazard_exclusive]
      rw [hc, if_neg Bool.false_ne_true]
  · intro hf hc
    subst hf
    simp only [__hazard_exclusive]
    rw [hc, if_pos rfl, if_neg Bool.false_ne_true]

/-- Witness for C8 (amended) at a concrete hazard array. -/
theorem c8_hazard_exclusive_amended_witness :
    ((__hazard_exclusive [some 4, none] 5 RefState.mem false =
        some (0, RefState.locked) ↔
      (__hazard_copy [some 4, none]).contains 5 = false) ∧
     (false = false → (__hazard_copy [some 4, none]).contains 5 = true →
      __hazard_exclusive [some 4, none] 5 RefState.mem false =
        some (1, RefState.mem))) ∧
    (__hazard_copy [some 4, none]).contains 5 = false ∧
    __hazard_exclusive [some 4, none] 5 RefState.mem false =
      some (0, RefState.locked) :=
  ⟨c8_hazard_exclusive_amended [some 4, none] 5 RefState.mem false
    (Or.inl rfl), rfl, rfl⟩

/-- C8 counterexample: the claim says the busy path leaves "the ref state as
it was on entry"; but with entry state `LOCKED` (allowed by the function's
own precondition) the busy path stores `MEM`, not the entry state. -/
theorem c8_entry_state_counterexample :
    (RefState.locked = RefState.mem ∨ RefState.locked = RefState.locked) ∧
    __hazard_exclusive [some 5] 5 RefState.locked false =
      some (1, RefState.mem) ∧
    RefState.mem ≠ RefState.locked :=
  ⟨Or.inr rfl, rfl, by decide⟩

/-- C1 (code bug): evicting an internal page whose in-memory child carries
`SPLIT` but is dirty: `__rec_excl_page` acquires exclusivity on the child
and only then fails the careful merge test, returning before `__rec_excl`
updates the last-locked marker; the unwind therefore stops at the candidate
and the child is left `LOCKED` (entering as `MEM`), violating the claim
that every page locked during the call ends in `MEM` or `DISK`. -/
theorem c1_locked_child_leak :
    __wt_rec_evict [] false false ⟨RecFlag.recNone, ⟨0, 0⟩, Page.mk ⟨9, PageType.rowLeaf, RefState.disk, none, none, false, RecFlag.recNone, false, false, ⟨0, 0⟩, 0, 0⟩ PageList.pnil⟩ [] true 0 false ⟨some 1, none, 0, false⟩
        (Page.mk ⟨1, PageType.rowInt, RefState.mem, some 1, none, false, RecFlag.recNone, false, false, ⟨0, 0⟩, 0, 0⟩
          (PageList.pcons (Page.mk ⟨2, PageType.rowLeaf, RefState.mem, some 2, none, false, RecFlag.recSplit, true, true, ⟨0, 0⟩, 0, 0⟩ PageList.pnil) PageList.pnil)) =
      some (1,
        Page.mk ⟨1, PageType.rowInt, RefState.mem, some 1, none, false, RecFlag.recNone, false, false, ⟨0, 0⟩, 0, 0⟩
          (PageList.pcons (Page.mk ⟨2, PageType.rowLeaf, RefState.locked, some 2, none, false, RecFlag.recSplit, true, true, ⟨0, 0⟩, 0, 0⟩ PageList.pnil) PageList.pnil),
        ⟨some 1, none, 0, false⟩, []) ∧
    RefState.locked ≠ RefState.mem ∧ RefState.locked ≠ RefState.disk :=
  ⟨rfl, by decide, by decide⟩


/-- C3: for every dirty non-root page whose reconciliation outcome is
`REPLACE`, the commit frees the old `ref.addr` iff it is non-null and
off-page, installs a newly allocated address holder carrying
`modify.replace`, nulls `ref.page`, publishes `ref.state = DISK` after the
structure fields are set (visible in the trace order), and then discards
the page together with its merged subpages. -/
theorem c3_replace_commit (single : Bool) (d : PageData) (kids : PageList)
    (h : d.flags = RecFlag.recReplace) :
    ∃ devs,
      __rec_discard ((Page.mk { d with refAddr := some d.replace, offPage := true, refPage := none, state := RefState.disk } kids).psize + 1) (Page.mk { d with refAddr := some d.replace, offPage := true, refPage := none, state := RefState.disk } kids) = some devs ∧
      __rec_page_dirty_update single true (Page.mk d kids) =
        some (0, Page.mk { d with refAddr := some d.replace, offPage := true, refPage := none, state := RefState.disk } kids,
          (if d.refAddr.isSome && d.offPage then [Ev.freeRefAddr] else []) ++
            ([Ev.setRefAddr d.replace.addr d.replace.size, Ev.setRefPage none,
              Ev.publishState RefState.disk] ++ devs)) := by
  have hkp : kids.psize < (Page.mk { d with refAddr := some d.replace, offPage := true, refPage := none, state := RefState.disk } kids).psize + 1 := by
    simp [Page.psize]
    omega
  obtain ⟨devs, hdev⟩ := discard_some _ _ kids hkp
  refine ⟨devs, hdev, ?_⟩
  rw [h] at hdev
  by_cases hc : (d.refAddr.isSome && d.offPage) = true
  · simp [__rec_page_dirty_update, h, hc, hdev]
  · simp [__rec_page_dirty_update, h, hc, hdev]

/-- Witness for C3 at a concrete page with an off-page old address. -/
theorem c3_replace_commit_witness :
    (⟨3, PageType.rowLeaf, RefState.locked, some 3, some ⟨5, 6⟩, true, RecFlag.recReplace, false, true, ⟨10, 20⟩, 0, 0⟩ : PageData).flags = RecFlag.recReplace ∧
    (∃ devs,
      __rec_discard ((Page.mk { (⟨3, PageType.rowLeaf, RefState.locked, some 3, some ⟨5, 6⟩, true, RecFlag.recReplace, false, true, ⟨10, 20⟩, 0, 0⟩ : PageData) with refAddr := some (⟨3, PageType.rowLeaf, RefState.locked, some 3, some ⟨5, 6⟩, true, RecFlag.recReplace, false, true, ⟨10, 20⟩, 0, 0⟩ : PageData).replace, offPage := true, refPage := none, state := RefState.disk } PageList.pnil).psize + 1) (Page.mk { (⟨3, PageType.rowLeaf, RefState.locked, some 3, some ⟨5, 6⟩, true, RecFlag.recReplace, false, true, ⟨10, 20⟩, 0, 0⟩ : PageData) with refAddr := some (⟨3, PageType.rowLeaf, RefState.locked, some 3, some ⟨5, 6⟩, true, RecFlag.recReplace, false, true, ⟨10, 20⟩, 0, 0⟩ : PageData).replace, offPage := true, refPage := none, state := RefState.disk } PageList.pnil) = some devs ∧
      __rec_page_dirty_update false true (Page.mk ⟨3, PageType.rowLeaf, RefState.locked, some 3, some ⟨5, 6⟩, true, RecFlag.recReplace, false, true, ⟨10, 20⟩, 0, 0⟩ PageList.pnil) =
        some (0, Page.mk { (⟨3, PageType.rowLeaf, RefState.locked, some 3, some ⟨5, 6⟩, true, RecFlag.recReplace, false, true, ⟨10, 20⟩, 0, 0⟩ : PageData) with refAddr := some (⟨3, PageType.rowLeaf, RefState.locked, some 3, some ⟨5, 6⟩, true, RecFlag.recReplace, false, true, ⟨10, 20⟩, 0, 0⟩ : PageData).replace, offPage := true, refPage := none, state := RefState.disk } PageList.pnil,
          (if (⟨3, PageType.rowLeaf, RefState.locked, some 3, some ⟨5, 6⟩, true, RecFlag.recReplace, false, true, ⟨10, 20⟩, 0, 0⟩ : PageData).refAddr.isSome && (⟨3, PageType.rowLeaf, RefState.locked, some 3, some ⟨5, 6⟩, true, RecFlag.recReplace, false, true, ⟨10, 20⟩, 0, 0⟩ : PageData).offPage then [Ev.freeRefAddr] else []) ++
            ([Ev.setRefAddr (⟨3, PageType.rowLeaf, RefState.locked, some 3, some ⟨5, 6⟩, true, RecFlag.recReplace, false, true, ⟨10, 20⟩, 0, 0⟩ : PageData).replace.addr (⟨3, PageType.rowLeaf, RefState.locked, some 3, some ⟨5, 6⟩, true, RecFlag.recReplace, false, true, ⟨10, 20⟩, 0, 0⟩ : PageData).replace.size, Ev.setRefPage none,
              Ev.publishState RefState.disk] ++ devs))) :=
  ⟨rfl, c3_replace_commit false ⟨3, PageType.rowLeaf, RefState.locked, some 3, some ⟨5, 6⟩, true, RecFlag.recReplace, false, true, ⟨10, 20⟩, 0, 0⟩ PageList.pnil rfl⟩

/-- A successful review followed by the controller tail: unfolding glue. -/
theorem evict_not_merge_split (hz : List (Option Nat)) (force : Bool)
    (w : WriteRes) (oracle : List WriteRes) (allocOk : Bool) (cacheGen : Nat)
    (isRoot : Bool) (bt : BtreeSt) (d : PageData) (kids : PageList)
    (p1 : Page)
    (hsm : d.flags ≠ RecFlag.recSplitMerge)
    (hrev : __rec_review hz false force (Page.mk d kids) = some (0, p1)) :
    __wt_rec_evict hz false force w oracle allocOk cacheGen isRoot bt
        (Page.mk d kids) =
      evictAfterReview false allocOk isRoot oracle w bt p1 := by
  simp only [__wt_rec_evict]
  rw [if_neg hsm, hrev]
  dsimp only
  rw [if_neg (by simp)]

/-- C7: for every clean non-root page (rec mask zero, not modified) whose
review succeeds, `__wt_rec_evict` does not invoke the reconciliation
writer, sets `ref.page` to null and `ref.state` to `DISK`, and passes the
page to `page_out` exactly once, running `track_wrapup` first iff the page
has a `modify` structure. -/
theorem c7_clean_page_evict (hz : List (Option Nat)) (force : Bool)
    (w : WriteRes) (oracle : List WriteRes) (allocOk : Bool) (cacheGen : Nat)
    (bt : BtreeSt) (d : PageData) (kids : PageList) (p1 : Page)
    (hflag : d.flags = RecFlag.recNone)
    (hmod : d.modified = false)
    (hrev : __rec_review hz false force (Page.mk d kids) = some (0, p1)) :
    ∃ ks2 evs,
      __wt_rec_evict hz false force w oracle allocOk cacheGen false bt
          (Page.mk d kids) =
        some (0, Page.mk { d with refPage := none, state := RefState.disk } ks2, bt, evs) ∧
      evs = [Ev.setRefPage none, Ev.setState RefState.disk] ++
        ((if d.hasModify then [Ev.trackWrapup d.id] else []) ++
          [Ev.pageOut d.id]) ∧
      evs.count (Ev.pageOut d.id) = 1 ∧
      (∀ i, Ev.recWrite i ∉ evs) := by
  have hev := evict_not_merge_split hz force w oracle allocOk cacheGen false
    bt d kids p1 (by simp [hflag]) hrev
  obtain ⟨-, hbr⟩ := review_ok_shape hz force d kids p1 hrev
  have hcount : ([Ev.setRefPage none, Ev.setState RefState.disk] ++
      ((if d.hasModify then [Ev.trackWrapup d.id] else []) ++
        [Ev.pageOut d.id])).count (Ev.pageOut d.id) = 1 := by
    by_cases hm : d.hasModify = true
    · simp [hm, List.count_append, List.count_cons, List.count_singleton]
    · simp [hm, List.count_append, List.count_cons, List.count_singleton]
  have hnw : ∀ i, Ev.recWrite i ∉
      ([Ev.setRefPage none, Ev.setState RefState.disk] ++
        ((if d.hasModify then [Ev.trackWrapup d.id] else []) ++
          [Ev.pageOut d.id])) := by
    intro i
    by_cases hm : d.hasModify = true
    · simp [hm]
    · simp [hm]
  rcases hbr with ⟨hint, ks2, l2, hwalk, hp1⟩ | ⟨hint, hp1⟩
  · subst hp1
    refine ⟨ks2, _, ?_, rfl, hcount, hnw⟩
    rw [hev]
    simp [evictAfterReview, Page.data, Page.kids, hmod, evictUpdate, hflag,
      __rec_page_clean_update, evictErr, __rec_discard_page]
  · subst hp1
    refine ⟨kids, _, ?_, rfl, hcount, hnw⟩
    rw [hev]
    simp [evictAfterReview, Page.data, Page.kids, hmod, evictUpdate, hflag,
      __rec_page_clean_update, evictErr, __rec_discard_page]

/-- Witness for C7 at a concrete clean leaf with a modify structure. -/
theorem c7_clean_page_evict_witness :
    (⟨4, PageType.rowLeaf, RefState.mem, some 4, none, false, RecFlag.recNone, false, true, ⟨0, 0⟩, 0, 0⟩ : PageData).flags = RecFlag.recNone ∧
    __rec_review [] false false (Page.mk ⟨4, PageType.rowLeaf, RefState.mem, some 4, none, false, RecFlag.recNone, false, true, ⟨0, 0⟩, 0, 0⟩ PageList.pnil) =
      some (0, Page.mk ⟨4, PageType.rowLeaf, RefState.locked, some 4, none, false, RecFlag.recNone, false, true, ⟨0, 0⟩, 0, 0⟩ PageList.pnil) ∧
    (∃ ks2 evs,
      __wt_rec_evict [] false false ⟨RecFlag.recNone, ⟨0, 0⟩, Page.mk ⟨9, PageType.rowLeaf, RefState.disk, none, none, false, RecFlag.recNone, false, false, ⟨0, 0⟩, 0, 0⟩ PageList.pnil⟩ [] true 0 false ⟨some 1, none, 0, false⟩
          (Page.mk ⟨4, PageType.rowLeaf, RefState.mem, some 4, none, false, RecFlag.recNone, false, true, ⟨0, 0⟩, 0, 0⟩ PageList.pnil) =
        some (0, Page.mk { (⟨4, PageType.rowLeaf, RefState.mem, some 4, none, false, RecFlag.recNone, false, true, ⟨0, 0⟩, 0, 0⟩ : PageData) with refPage := none, state := RefState.disk } ks2, ⟨some 1, none, 0, false⟩, evs) ∧
      evs = [Ev.setRefPage none, Ev.setState RefState.disk] ++
        ((if (⟨4, PageType.rowLeaf, RefState.mem, some 4, none, false, RecFlag.recNone, false, true, ⟨0, 0⟩, 0, 0⟩ : PageData).hasModify then [Ev.trackWrapup 4] else []) ++ [Ev.pageOut 4]) ∧
      evs.count (Ev.pageOut 4) = 1 ∧
      (∀ i, Ev.recWrite i ∉ evs)) :=
  ⟨rfl, rfl,
    c7_clean_page_evict [] false ⟨RecFlag.recNone, ⟨0, 0⟩, Page.mk ⟨9, PageType.rowLeaf, RefState.disk, none, none, false, RecFlag.recNone, false, false, ⟨0, 0⟩, 0, 0⟩ PageList.pnil⟩ [] true 0 ⟨some 1, none, 0, false⟩ ⟨4, PageType.rowLeaf, RefState.mem, some 4, none, false, RecFlag.recNone, false, true, ⟨0, 0⟩, 0, 0⟩ PageList.pnil _ rfl rfl rfl⟩


/-- C10: when allocation of the new address holder fails during the
`REPLACE` commit, `__wt_rec_evict` propagates the allocation error, but the
commit is not atomic: the old independently allocated `ref.addr` has
already been freed and is not restored, so after the error (and the unwind
restoring states to `MEM`) the parent reference no longer carries the
child's previous on-disk address. -/
theorem c10_replace_alloc_failure (hz : List (Option Nat)) (force : Bool)
    (w : WriteRes) (oracle : List WriteRes) (cacheGen : Nat) (bt : BtreeSt)
    (d : PageData) (kids : PageList) (p1 : Page)
    (hsm : d.flags ≠ RecFlag.recSplitMerge)
    (hmod : d.modified = true)
    (hw : w.flags = RecFlag.recReplace)
    (hra : d.refAddr.isSome = true)
    (hop : d.offPage = true)
    (hrev : __rec_review hz false force (Page.mk d kids) = some (0, p1)) :
    __wt_rec_evict hz false force w oracle false cacheGen false bt
        (Page.mk d kids) =
      some (ENOMEM, Page.mk { d with state := RefState.mem, refAddr := none, flags := w.flags, modified := false, hasModify := true, replace := w.repl, splitId := w.split.data.id } kids, bt, [Ev.recWrite d.id, Ev.freeRefAddr]) ∧
    ({ d with state := RefState.mem, refAddr := none, flags := w.flags, modified := false, hasModify := true, replace := w.repl, splitId := w.split.data.id } : PageData).refAddr = none := by
  refine ⟨?_, rfl⟩
  have hev := evict_not_merge_split hz force w oracle false cacheGen false
    bt d kids p1 hsm hrev
  obtain ⟨-, hbr⟩ := review_ok_shape hz force d kids p1 hrev
  rcases hbr with ⟨hint, ks2, l2, hwalk, hp1⟩ | ⟨hint, hp1⟩
  · subst hp1
    have hclr := excl_clear_roundtrip (kids.psize + 1) hz force kids ks2
      (some d.id) l2 hwalk (1 + ks2.psize + 1) (by omega)
    rw [hev]
    simp [evictAfterReview, Page.data, Page.kids, hmod, evictUpdate, hw,
      __rec_page_dirty_update, hra, hop, evictErr, __rec_excl_clear, hint,
      hclr, applyWrite, ENOMEM, Page.psize]
  · subst hp1
    rw [hev]
    simp [evictAfterReview, Page.data, Page.kids, hmod, evictUpdate, hw,
      __rec_page_dirty_update, hra, hop, evictErr, __rec_excl_clear, hint,
      applyWrite, ENOMEM, Page.psize]

/-- Witness for C10 at a concrete dirty leaf with an off-page old address
and a failing allocation. -/
theorem c10_replace_alloc_failure_witness :
    __rec_review [] false false (Page.mk ⟨6, PageType.rowLeaf, RefState.mem, some 6, some ⟨5, 7⟩, true, RecFlag.recNone, true, true, ⟨0, 0⟩, 0, 0⟩ PageList.pnil) =
      some (0, Page.mk ⟨6, PageType.rowLeaf, RefState.locked, some 6, some ⟨5, 7⟩, true, RecFlag.recNone, true, true, ⟨0, 0⟩, 0, 0⟩ PageList.pnil) ∧
    (__wt_rec_evict [] false false ⟨RecFlag.recReplace, ⟨30, 40⟩, Page.mk ⟨9, PageType.rowLeaf, RefState.disk, none, none, false, RecFlag.recNone, false, false, ⟨0, 0⟩, 0, 0⟩ PageList.pnil⟩ [] false 0 false ⟨some 1, none, 0, false⟩
        (Page.mk ⟨6, PageType.rowLeaf, RefState.mem, some 6, some ⟨5, 7⟩, true, RecFlag.recNone, true, true, ⟨0, 0⟩, 0, 0⟩ PageList.pnil) =
      some (ENOMEM, Page.mk { (⟨6, PageType.rowLeaf, RefState.mem, some 6, some ⟨5, 7⟩, true, RecFlag.recNone, true, true, ⟨0, 0⟩, 0, 0⟩ : PageData) with state := RefState.mem, refAddr := none, flags := RecFlag.recReplace, modified := false, hasModify := true, replace := ⟨30, 40⟩, splitId := 9 } PageList.pnil, ⟨some 1, none, 0, false⟩, [Ev.recWrite 6, Ev.freeRefAddr]) ∧
     ({ (⟨6, PageType.rowLeaf, RefState.mem, some 6, some ⟨5, 7⟩, true, RecFlag.recNone, true, true, ⟨0, 0⟩, 0, 0⟩ : PageData) with state := RefState.mem, refAddr := none, flags := RecFlag.recReplace, modified := false, hasModify := true, replace := ⟨30, 40⟩, splitId := 9 } : PageData).refAddr = none) :=
  ⟨rfl,
    c10_replace_alloc_failure [] false ⟨RecFlag.recReplace, ⟨30, 40⟩, Page.mk ⟨9, PageType.rowLeaf, RefState.disk, none, none, false, RecFlag.recNone, false, false, ⟨0, 0⟩, 0, 0⟩ PageList.pnil⟩ [] 0 ⟨some 1, none, 0, false⟩ ⟨6, PageType.rowLeaf, RefState.mem, some 6, some ⟨5, 7⟩, true, RecFlag.recNone, true, true, ⟨0, 0⟩, 0, 0⟩ PageList.pnil _ (by decide) rfl rfl rfl rfl rfl⟩

/-- C4: for every dirty non-root page whose reconciliation outcome is
`EMPTY`, `__wt_rec_evict` returns OK without discarding: `page_out` is not
called, and (with `WT_REC_SINGLE` unset) every exclusivity acquired during
review is undone — the page's subtree comes back exactly as it went in,
every lock restored to `MEM`. -/
theorem c4_empty_undoes_exclusivity (hz : List (Option Nat)) (force : Bool)
    (w : WriteRes) (oracle : List WriteRes) (allocOk : Bool) (cacheGen : Nat)
    (bt : BtreeSt) (d : PageData) (kids : PageList) (p1 : Page)
    (hsm : d.flags ≠ RecFlag.recSplitMerge)
    (hmod : d.modified = true)
    (hw : w.flags = RecFlag.recEmpty)
    (hrev : __rec_review hz false force (Page.mk d kids) = some (0, p1)) :
    __wt_rec_evict hz false force w oracle allocOk cacheGen false bt
        (Page.mk d kids) =
      some (0, Page.mk { d with state := RefState.mem, flags := w.flags, modified := false, hasModify := true, replace := w.repl, splitId := w.split.data.id } kids, bt, [Ev.recWrite d.id]) ∧
    (∀ i, Ev.pageOut i ∉ [Ev.recWrite d.id]) := by
  refine ⟨?_, by intro i; simp⟩
  have hev := evict_not_merge_split hz force w oracle allocOk cacheGen false
    bt d kids p1 hsm hrev
  obtain ⟨-, hbr⟩ := review_ok_shape hz force d kids p1 hrev
  rcases hbr with ⟨hint, ks2, l2, hwalk, hp1⟩ | ⟨hint, hp1⟩
  · subst hp1
    have hclr := excl_clear_roundtrip (kids.psize + 1) hz force kids ks2
      (some d.id) l2 hwalk (1 + ks2.psize + 1) (by omega)
    rw [hev]
    simp [evictAfterReview, Page.data, Page.kids, hmod, evictUpdate, hw,
      __rec_page_dirty_update, evictErr, __rec_excl_clear, hint, hclr,
      applyWrite, Page.psize]
  · subst hp1
    rw [hev]
    simp [evictAfterReview, Page.data, Page.kids, hmod, evictUpdate, hw,
      __rec_page_dirty_update, evictErr, __rec_excl_clear, hint,
      applyWrite, Page.psize]

/-- Witness for C4 at a concrete dirty leaf reconciled to `EMPTY`. -/
theorem c4_empty_undoes_exclusivity_witness :
    __rec_review [] false false (Page.mk ⟨8, PageType.rowLeaf, RefState.mem, some 8, none, false, RecFlag.recNone, true, true, ⟨0, 0⟩, 0, 0⟩ PageList.pnil) =
      some (0, Page.mk ⟨8, PageType.rowLeaf, RefState.locked, some 8, none, false, RecFlag.recNone, true, true, ⟨0, 0⟩, 0, 0⟩ PageList.pnil) ∧
    (__wt_rec_evict [] false false ⟨RecFlag.recEmpty, ⟨1, 2⟩, Page.mk ⟨9, PageType.rowLeaf, RefState.disk, none, none, false, RecFlag.recNone, false, false, ⟨0, 0⟩, 0, 0⟩ PageList.pnil⟩ [] true 0 false ⟨some 1, none, 0, false⟩
        (Page.mk ⟨8, PageType.rowLeaf, RefState.mem, some 8, none, false, RecFlag.recNone, true, true, ⟨0, 0⟩, 0, 0⟩ PageList.pnil) =
      some (0, Page.mk { (⟨8, PageType.rowLeaf, RefState.mem, some 8, none, false, RecFlag.recNone, true, true, ⟨0, 0⟩, 0, 0⟩ : PageData) with state := RefState.mem, flags := RecFlag.recEmpty, modified := false, hasModify := true, replace := ⟨1, 2⟩, splitId := 9 } PageList.pnil, ⟨some 1, none, 0, false⟩, [Ev.recWrite 8]) ∧
     (∀ i, Ev.pageOut i ∉ [Ev.recWrite 8])) :=
  ⟨rfl,
    c4_empty_undoes_exclusivity [] false ⟨RecFlag.recEmpty, ⟨1, 2⟩, Page.mk ⟨9, PageType.rowLeaf, RefState.disk, none, none, false, RecFlag.recNone, false, false, ⟨0, 0⟩, 0, 0⟩ PageList.pnil⟩ [] true 0 ⟨some 1, none, 0, false⟩ ⟨8, PageType.rowLeaf, RefState.mem, some 8, none, false, RecFlag.recNone, true, true, ⟨0, 0⟩, 0, 0⟩ PageList.pnil _ (by decide) rfl rfl rfl⟩


/-- C2: the subtree review walk (`__rec_excl`, visiting child slots in
sibling order) (a) skips children with state `DISK`; (b) aborts when a
child is `LOCKED` or `READING`; (c) aborts when an in-memory child carries
none of `EMPTY`/`SPLIT`/`SPLIT_MERGE`; (d) accepts a `SPLIT_MERGE` child
regardless of dirtiness and a clean `SPLIT`/`EMPTY` child — locking it,
making it the deepest-locked marker, and walking on to the next sibling
when it is a leaf; (e) recurses into such an accepted child when it is
internal; and (f) aborts on a dirty `SPLIT`/`EMPTY` child. -/
theorem c2_subtree_walk (hz : List (Option Nat)) (force : Bool) (n : Nat)
    (cd : PageData) (ck rest : PageList) (last : Option Nat) :
    (cd.state = RefState.disk →
      __rec_excl hz false force (n + 1) (PageList.pcons (Page.mk cd ck) rest)
          last =
        (__rec_excl hz false force n rest last).map
          (fun x => (x.1, PageList.pcons (Page.mk cd ck) x.2.1, x.2.2))) ∧
    ((cd.state = RefState.locked ∨ cd.state = RefState.reading) →
      __rec_excl hz false force (n + 1) (PageList.pcons (Page.mk cd ck) rest)
          last =
        some (WT_ERROR, PageList.pcons (Page.mk cd ck) rest, last)) ∧
    (cd.state = RefState.mem →
      (cd.flags = RecFlag.recNone ∨ cd.flags = RecFlag.recReplace) →
      __rec_excl hz false force (n + 1) (PageList.pcons (Page.mk cd ck) rest)
          last =
        some (1, PageList.pcons (Page.mk cd ck) rest, last)) ∧
    (cd.state = RefState.mem →
      (cd.flags = RecFlag.recSplitMerge ∨
        ((cd.flags = RecFlag.recSplit ∨ cd.flags = RecFlag.recEmpty) ∧
          cd.modified = false)) →
      (__hazard_copy hz).contains cd.id = false →
      isInternal cd.ptype = false →
      __rec_excl hz false force (n + 1) (PageList.pcons (Page.mk cd ck) rest)
          last =
        (__rec_excl hz false force n rest (some cd.id)).map
          (fun x => (x.1,
            PageList.pcons (Page.mk { cd with state := RefState.locked } ck)
              x.2.1, x.2.2))) ∧
    (cd.state = RefState.mem →
      (cd.flags = RecFlag.recSplitMerge ∨
        ((cd.flags = RecFlag.recSplit ∨ cd.flags = RecFlag.recEmpty) ∧
          cd.modified = false)) →
      (__hazard_copy hz).contains cd.id = false →
      isInternal cd.ptype = true →
      ∀ cks l2,
        __rec_excl hz false force n ck (some cd.id) = some (0, cks, l2) →
        __rec_excl hz false force (n + 1)
            (PageList.pcons (Page.mk cd ck) rest) last =
          (__rec_excl hz false force n rest l2).map
            (fun x => (x.1,
              PageList.pcons (Page.mk { cd with state := RefState.locked } cks)
                x.2.1, x.2.2))) ∧
    (cd.state = RefState.mem →
      (cd.flags = RecFlag.recSplit ∨ cd.flags = RecFlag.recEmpty) →
      cd.modified = true →
      (__hazard_copy hz).contains cd.id = false →
      __rec_excl hz false force (n + 1) (PageList.pcons (Page.mk cd ck) rest)
          last =
        some (1,
          PageList.pcons (Page.mk { cd with state := RefState.locked } ck)
            rest, last)) := by
  refine ⟨?_, ?_, ?_, ?_, ?_, ?_⟩
  · intro hs
    simp only [__rec_excl, hs]
    cases hr : __rec_excl hz false force n rest last with
    | none => simp
    | some v =>
      obtain ⟨r, ks, l⟩ := v
      simp
  · intro hs
    rcases hs with hs | hs <;> simp [__rec_excl, hs]
  · intro hs hf
    have hcheap : ¬(cd.flags = RecFlag.recEmpty ∨ cd.flags = RecFlag.recSplit ∨
        cd.flags = RecFlag.recSplitMerge) := by
      rcases hf with hf | hf <;> simp [hf]
    simp [__rec_excl, hs, __rec_excl_page, hcheap]
  · intro hs hacc hc hint
    have hcheap : cd.flags = RecFlag.recEmpty ∨ cd.flags = RecFlag.recSplit ∨
        cd.flags = RecFlag.recSplitMerge := by
      rcases hacc with hf | ⟨hf | hf, -⟩
      · exact Or.inr (Or.inr hf)
      · exact Or.inr (Or.inl hf)
      · exact Or.inl hf
    have hmt : mergeTest cd = 0 := by
      rcases hacc with hf | ⟨hf, hm⟩
      · simp [mergeTest, hf]
      · rcases hf with hf | hf <;> simp [mergeTest, hf, hm]
    have hhaz : __hazard_exclusive hz cd.id cd.state force =
        some (0, RefState.locked) := by
      simp only [__hazard_exclusive]
      rw [hc, if_neg Bool.false_ne_true]
    rw [hs] at hhaz
    simp only [__rec_excl, hs, __rec_excl_page, hcheap, if_pos,
      if_neg Bool.false_ne_true, hhaz]
    simp only [hmt]
    rw [if_neg (by norm_num)]
    rw [if_neg (by simp [hint])]
    cases hr : __rec_excl hz false force n rest (some cd.id) with
    | none => simp
    | some v =>
      obtain ⟨r, ks, l⟩ := v
      simp
  · intro hs hacc hc hint cks l2 hin
    have hcheap : cd.flags = RecFlag.recEmpty ∨ cd.flags = RecFlag.recSplit ∨
        cd.flags = RecFlag.recSplitMerge := by
      rcases hacc with hf | ⟨hf | hf, -⟩
      · exact Or.inr (Or.inr hf)
      · exact Or.inr (Or.inl hf)
      · exact Or.inl hf
    have hmt : mergeTest cd = 0 := by
      rcases hacc with hf | ⟨hf, hm⟩
      · simp [mergeTest, hf]
      · rcases hf with hf | hf <;> simp [mergeTest, hf, hm]
    have hhaz : __hazard_exclusive hz cd.id cd.state force =
        some (0, RefState.locked) := by
      simp only [__hazard_exclusive]
      rw [hc, if_neg Bool.false_ne_true]
    rw [hs] at hhaz
    simp only [__rec_excl, hs, __rec_excl_page, hcheap, if_pos,
      if_neg Bool.false_ne_true, hhaz]
    simp only [hmt]
    rw [if_neg (by norm_num)]
    rw [if_pos hint]
    rw [hin]
    dsimp only
    rw [if_neg (by norm_num)]
    cases hr : __rec_excl hz false force n rest l2 with
    | none => simp
    | some v =>
      obtain ⟨r, ks, l⟩ := v
      simp
  · intro hs hf hm hc
    have hcheap : cd.flags = RecFlag.recEmpty ∨ cd.flags = RecFlag.recSplit ∨
        cd.flags = RecFlag.recSplitMerge := by
      rcases hf with hf | hf
      · exact Or.inr (Or.inl hf)
      · exact Or.inl hf
    have hmt : mergeTest cd = 1 := by
      rcases hf with hf | hf <;> simp [mergeTest, hf, hm]
    have hhaz : __hazard_exclusive hz cd.id cd.state force =
        some (0, RefState.locked) := by
      simp only [__hazard_exclusive]
      rw [hc, if_neg Bool.false_ne_true]
    rw [hs] at hhaz
    simp only [__rec_excl, hs, __rec_excl_page, hcheap, if_pos,
      if_neg Bool.false_ne_true, hhaz]
    simp only [hmt]
    rw [if_pos (by norm_num)]


/-- Witness for C2: one concrete instance per behaviour of the walk. -/
theorem c2_subtree_walk_witness :
    (__rec_excl [] false false 2 (PageList.pcons (Page.mk ⟨2, PageType.rowLeaf, RefState.disk, none, none, false, RecFlag.recNone, false, false, ⟨0, 0⟩, 0, 0⟩ PageList.pnil) PageList.pnil) none =
      (__rec_excl [] false false 1 PageList.pnil none).map (fun x => (x.1, PageList.pcons (Page.mk ⟨2, PageType.rowLeaf, RefState.disk, none, none, false, RecFlag.recNone, false, false, ⟨0, 0⟩, 0, 0⟩ PageList.pnil) x.2.1, x.2.2))) ∧
    (__rec_excl [] false false 2 (PageList.pcons (Page.mk ⟨2, PageType.rowLeaf, RefState.locked, none, none, false, RecFlag.recNone, false, false, ⟨0, 0⟩, 0, 0⟩ PageList.pnil) PageList.pnil) none =
      some (WT_ERROR, PageList.pcons (Page.mk ⟨2, PageType.rowLeaf, RefState.locked, none, none, false, RecFlag.recNone, false, false, ⟨0, 0⟩, 0, 0⟩ PageList.pnil) PageList.pnil, none)) ∧
    (__rec_excl [] false false 2 (PageList.pcons (Page.mk ⟨2, PageType.rowLeaf, RefState.mem, some 2, none, false, RecFlag.recNone, false, false, ⟨0, 0⟩, 0, 0⟩ PageList.pnil) PageList.pnil) none =
      some (1, PageList.pcons (Page.mk ⟨2, PageType.rowLeaf, RefState.mem, some 2, none, false, RecFlag.recNone, false, false, ⟨0, 0⟩, 0, 0⟩ PageList.pnil) PageList.pnil, none)) ∧
    (__rec_excl [] false false 2 (PageList.pcons (Page.mk ⟨3, PageType.rowLeaf, RefState.mem, some 3, none, false, RecFlag.recSplitMerge, true, true, ⟨0, 0⟩, 0, 0⟩ PageList.pnil) PageList.pnil) none =
      (__rec_excl [] false false 1 PageList.pnil (some 3)).map (fun x => (x.1, PageList.pcons (Page.mk ⟨3, PageType.rowLeaf, RefState.locked, some 3, none, false, RecFlag.recSplitMerge, true, true, ⟨0, 0⟩, 0, 0⟩ PageList.pnil) x.2.1, x.2.2))) ∧
    (__rec_excl [] false false 2 (PageList.pcons (Page.mk ⟨3, PageType.rowInt, RefState.mem, some 3, none, false, RecFlag.recSplitMerge, true, true, ⟨0, 0⟩, 0, 0⟩ PageList.pnil) PageList.pnil) none =
      (__rec_excl [] false false 1 PageList.pnil (some 3)).map (fun x => (x.1, PageList.pcons (Page.mk ⟨3, PageType.rowInt, RefState.locked, some 3, none, false, RecFlag.recSplitMerge, true, true, ⟨0, 0⟩, 0, 0⟩ PageList.pnil) x.2.1, x.2.2))) ∧
    (__rec_excl [] false false 2 (PageList.pcons (Page.mk ⟨3, PageType.rowLeaf, RefState.mem, some 3, none, false, RecFlag.recSplit, true, true, ⟨0, 0⟩, 0, 0⟩ PageList.pnil) PageList.pnil) none =
      some (1, PageList.pcons (Page.mk ⟨3, PageType.rowLeaf, RefState.locked, some 3, none, false, RecFlag.recSplit, true, true, ⟨0, 0⟩, 0, 0⟩ PageList.pnil) PageList.pnil, none)) :=
  ⟨(c2_subtree_walk [] false 1 ⟨2, PageType.rowLeaf, RefState.disk, none, none, false, RecFlag.recNone, false, false, ⟨0, 0⟩, 0, 0⟩ PageList.pnil PageList.pnil none).1 rfl,
   (c2_subtree_walk [] false 1 ⟨2, PageType.rowLeaf, RefState.locked, none, none, false, RecFlag.recNone, false, false, ⟨0, 0⟩, 0, 0⟩ PageList.pnil PageList.pnil none).2.1 (Or.inl rfl),
   (c2_subtree_walk [] false 1 ⟨2, PageType.rowLeaf, RefState.mem, some 2, none, false, RecFlag.recNone, false, false, ⟨0, 0⟩, 0, 0⟩ PageList.pnil PageList.pnil none).2.2.1 rfl (Or.inl rfl),
   (c2_subtree_walk [] false 1 ⟨3, PageType.rowLeaf, RefState.mem, some 3, none, false, RecFlag.recSplitMerge, true, true, ⟨0, 0⟩, 0, 0⟩ PageList.pnil PageList.pnil none).2.2.2.1 rfl (Or.inl rfl) rfl rfl,
   (c2_subtree_walk [] false 1 ⟨3, PageType.rowInt, RefState.mem, some 3, none, false, RecFlag.recSplitMerge, true, true, ⟨0, 0⟩, 0, 0⟩ PageList.pnil PageList.pnil none).2.2.2.2.1 rfl (Or.inl rfl) rfl rfl PageList.pnil (some 3) rfl,
   (c2_subtree_walk [] false 1 ⟨3, PageType.rowLeaf, RefState.mem, some 3, none, false, RecFlag.recSplit, true, true, ⟨0, 0⟩, 0, 0⟩ PageList.pnil PageList.pnil none).2.2.2.2.2 rfl (Or.inl rfl) rfl rfl⟩

/-- C9 (amended): `__wt_rec_evict` signals its recoverable failures with
nonzero codes, but hazard conflicts and unmergeable children share the
same code: a child in `READING` or `LOCKED` yields `WT_ERROR`, while both a
hazard reference on the page being locked and a child that cannot merge
yield `1`; `WT_ERROR` differs from `1` and from `0`. -/
theorem c9_error_codes_amended (hz : List (Option Nat)) (w : WriteRes)
    (oracle : List WriteRes) (allocOk : Bool) (cacheGen : Nat) (bt : BtreeSt)
    (d cd : PageData) (ck rest kids : PageList) :
    (d.flags ≠ RecFlag.recSplitMerge →
      (__hazard_copy hz).contains d.id = true →
      __wt_rec_evict hz false false w oracle allocOk cacheGen false bt
          (Page.mk d kids) =
        some (1, Page.mk { d with state := RefState.mem } kids, bt, [])) ∧
    (d.flags ≠ RecFlag.recSplitMerge →
      (__hazard_copy hz).contains d.id = false →
      isInternal d.ptype = true →
      cd.state = RefState.mem →
      (cd.flags = RecFlag.recNone ∨ cd.flags = RecFlag.recReplace) →
      __wt_rec_evict hz false false w oracle allocOk cacheGen false bt
          (Page.mk d (PageList.pcons (Page.mk cd ck) rest)) =
        some (1,
          Page.mk { d with state := RefState.mem }
            (PageList.pcons (Page.mk cd ck) rest), bt, [])) ∧
    (d.flags ≠ RecFlag.recSplitMerge →
      (__hazard_copy hz).contains d.id = false →
      isInternal d.ptype = true →
      (cd.state = RefState.reading ∨ cd.state = RefState.locked) →
      __wt_rec_evict hz false false w oracle allocOk cacheGen false bt
          (Page.mk d (PageList.pcons (Page.mk cd ck) rest)) =
        some (WT_ERROR,
          Page.mk { d with state := RefState.mem }
            (PageList.pcons (Page.mk cd ck) rest), bt, [])) ∧
    WT_ERROR ≠ 1 ∧ WT_ERROR ≠ 0 := by
  refine ⟨?_, ?_, ?_, by norm_num [WT_ERROR], by norm_num [WT_ERROR]⟩
  · intro hsm hc
    have hbusy : __hazard_exclusive hz d.id d.state false =
        some (1, RefState.mem) := by
      simp only [__hazard_exclusive]
      rw [hc, if_pos rfl, if_neg Bool.false_ne_true]
    simp only [__wt_rec_evict]
    rw [if_neg hsm]
    simp only [__rec_review]
    rw [if_neg Bool.false_ne_true, hbusy]
    dsimp only
    rw [if_pos (by norm_num)]
    dsimp only
    rw [if_pos (by norm_num)]
  · intro hsm hc hint hscd hfcd
    have hok : __hazard_exclusive hz d.id d.state false =
        some (0, RefState.locked) := by
      simp only [__hazard_exclusive]
      rw [hc, if_neg Bool.false_ne_true]
    have hcheap : ¬(cd.flags = RecFlag.recEmpty ∨ cd.flags = RecFlag.recSplit ∨
        cd.flags = RecFlag.recSplitMerge) := by
      rcases hfcd with hf | hf <;> simp [hf]
    have hwalk : __rec_excl hz false false
        ((PageList.pcons (Page.mk cd ck) rest).psize + 1)
        (PageList.pcons (Page.mk cd ck) rest) (some d.id) =
        some (1, PageList.pcons (Page.mk cd ck) rest, some d.id) := by
      simp [__rec_excl, hscd, __rec_excl_page, hcheap]
    simp only [__wt_rec_evict]
    rw [if_neg hsm]
    simp only [__rec_review]
    rw [if_neg Bool.false_ne_true, hok]
    dsimp only
    rw [if_neg (by norm_num)]
    simp only [reviewWalk]
    rw [if_pos hint]
    rw [hwalk]
    simp [__rec_excl_clear]
  · intro hsm hc hint hscd
    have hok : __hazard_exclusive hz d.id d.state false =
        some (0, RefState.locked) := by
      simp only [__hazard_exclusive]
      rw [hc, if_neg Bool.false_ne_true]
    have hwalk : __rec_excl hz false false
        ((PageList.pcons (Page.mk cd ck) rest).psize + 1)
        (PageList.pcons (Page.mk cd ck) rest) (some d.id) =
        some (WT_ERROR, PageList.pcons (Page.mk cd ck) rest, some d.id) := by
      simp only [PageList.psize]
      rcases hscd with hscd | hscd <;> simp [__rec_excl, hscd]
    simp only [__wt_rec_evict]
    rw [if_neg hsm]
    simp only [__rec_review]
    rw [if_neg Bool.false_ne_true, hok]
    dsimp only
    rw [if_neg (by norm_num)]
    simp only [reviewWalk]
    rw [if_pos hint]
    rw [hwalk]
    simp [__rec_excl_clear, WT_ERROR]


/-- Witness for C9 at concrete hazard-conflict, unmergeable-child and
reading-child evictions. -/
theorem c9_error_codes_amended_witness :
    (__wt_rec_evict [some 1] false false ⟨RecFlag.recNone, ⟨0, 0⟩, Page.mk ⟨9, PageType.rowLeaf, RefState.disk, none, none, false, RecFlag.recNone, false, false, ⟨0, 0⟩, 0, 0⟩ PageList.pnil⟩ [] true 0 false ⟨some 1, none, 0, false⟩
        (Page.mk ⟨1, PageType.rowLeaf, RefState.mem, some 1, none, false, RecFlag.recNone, false, false, ⟨0, 0⟩, 0, 0⟩ PageList.pnil) =
      some (1, Page.mk ⟨1, PageType.rowLeaf, RefState.mem, some 1, none, false, RecFlag.recNone, false, false, ⟨0, 0⟩, 0, 0⟩ PageList.pnil, ⟨some 1, none, 0, false⟩, [])) ∧
    (__wt_rec_evict [] false false ⟨RecFlag.recNone, ⟨0, 0⟩, Page.mk ⟨9, PageType.rowLeaf, RefState.disk, none, none, false, RecFlag.recNone, false, false, ⟨0, 0⟩, 0, 0⟩ PageList.pnil⟩ [] true 0 false ⟨some 1, none, 0, false⟩
        (Page.mk ⟨1, PageType.rowInt, RefState.mem, some 1, none, false, RecFlag.recNone, false, false, ⟨0, 0⟩, 0, 0⟩ (PageList.pcons (Page.mk ⟨2, PageType.rowLeaf, RefState.mem, some 2, none, false, RecFlag.recNone, false, false, ⟨0, 0⟩, 0, 0⟩ PageList.pnil) PageList.pnil)) =
      some (1, Page.mk ⟨1, PageType.rowInt, RefState.mem, some 1, none, false, RecFlag.recNone, false, false, ⟨0, 0⟩, 0, 0⟩ (PageList.pcons (Page.mk ⟨2, PageType.rowLeaf, RefState.mem, some 2, none, false, RecFlag.recNone, false, false, ⟨0, 0⟩, 0, 0⟩ PageList.pnil) PageList.pnil), ⟨some 1, none, 0, false⟩, [])) ∧
    (__wt_rec_evict [] false false ⟨RecFlag.recNone, ⟨0, 0⟩, Page.mk ⟨9, PageType.rowLeaf, RefState.disk, none, none, false, RecFlag.recNone, false, false, ⟨0, 0⟩, 0, 0⟩ PageList.pnil⟩ [] true 0 false ⟨some 1, none, 0, false⟩
        (Page.mk ⟨1, PageType.rowInt, RefState.mem, some 1, none, false, RecFlag.recNone, false, false, ⟨0, 0⟩, 0, 0⟩ (PageList.pcons (Page.mk ⟨2, PageType.rowLeaf, RefState.reading, some 2, none, false, RecFlag.recNone, false, false, ⟨0, 0⟩, 0, 0⟩ PageList.pnil) PageList.pnil)) =
      some (WT_ERROR, Page.mk ⟨1, PageType.rowInt, RefState.mem, some 1, none, false, RecFlag.recNone, false, false, ⟨0, 0⟩, 0, 0⟩ (PageList.pcons (Page.mk ⟨2, PageType.rowLeaf, RefState.reading, some 2, none, false, RecFlag.recNone, false, false, ⟨0, 0⟩, 0, 0⟩ PageList.pnil) PageList.pnil), ⟨some 1, none, 0, false⟩, [])) ∧
    WT_ERROR ≠ 1 ∧ WT_ERROR ≠ 0 :=
  ⟨(c9_error_codes_amended [some 1] ⟨RecFlag.recNone, ⟨0, 0⟩, Page.mk ⟨9, PageType.rowLeaf, RefState.disk, none, none, false, RecFlag.recNone, false, false, ⟨0, 0⟩, 0, 0⟩ PageList.pnil⟩ [] true 0 ⟨some 1, none, 0, false⟩ ⟨1, PageType.rowLeaf, RefState.mem, some 1, none, false, RecFlag.recNone, false, false, ⟨0, 0⟩, 0, 0⟩ ⟨2, PageType.rowLeaf, RefState.mem, some 2, none, false, RecFlag.recNone, false, false, ⟨0, 0⟩, 0, 0⟩ PageList.pnil PageList.pnil PageList.pnil).1 (by decide) rfl,
   (c9_error_codes_amended [] ⟨RecFlag.recNone, ⟨0, 0⟩, Page.mk ⟨9, PageType.rowLeaf, RefState.disk, none, none, false, RecFlag.recNone, false, false, ⟨0, 0⟩, 0, 0⟩ PageList.pnil⟩ [] true 0 ⟨some 1, none, 0, false⟩ ⟨1, PageType.rowInt, RefState.mem, some 1, none, false, RecFlag.recNone, false, false, ⟨0, 0⟩, 0, 0⟩ ⟨2, PageType.rowLeaf, RefState.mem, some 2, none, false, RecFlag.recNone, false, false, ⟨0, 0⟩, 0, 0⟩ PageList.pnil PageList.pnil PageList.pnil).2.1 (by decide) rfl rfl rfl (Or.inl rfl),
   (c9_error_codes_amended [] ⟨RecFlag.recNone, ⟨0, 0⟩, Page.mk ⟨9, PageType.rowLeaf, RefState.disk, none, none, false, RecFlag.recNone, false, false, ⟨0, 0⟩, 0, 0⟩ PageList.pnil⟩ [] true 0 ⟨some 1, none, 0, false⟩ ⟨1, PageType.rowInt, RefState.mem, some 1, none, false, RecFlag.recNone, false, false, ⟨0, 0⟩, 0, 0⟩ ⟨2, PageType.rowLeaf, RefState.reading, some 2, none, false, RecFlag.recNone, false, false, ⟨0, 0⟩, 0, 0⟩ PageList.pnil PageList.pnil PageList.pnil).2.2.1 (by decide) rfl rfl (Or.inl rfl),
   by norm_num [WT_ERROR], by norm_num [WT_ERROR]⟩

/-- C9 counterexample: the claim requires one result (BUSY) for both the
hazard conflict and the READING/LOCKED child, and a distinct result
(UNMERGEABLE) for the unmergeable child.  At concrete inputs the hazard
conflict returns `1`, the READING child returns `WT_ERROR ≠ 1`, and the
unmergeable child also returns `1`: the hazard and unmergeable cases share
a code while the two claimed BUSY causes differ. -/
theorem c9_error_codes_counterexample :
    (__wt_rec_evict [some 1] false false ⟨RecFlag.recNone, ⟨0, 0⟩, Page.mk ⟨9, PageType.rowLeaf, RefState.disk, none, none, false, RecFlag.recNone, false, false, ⟨0, 0⟩, 0, 0⟩ PageList.pnil⟩ [] true 0 false ⟨some 1, none, 0, false⟩
        (Page.mk ⟨1, PageType.rowLeaf, RefState.mem, some 1, none, false, RecFlag.recNone, false, false, ⟨0, 0⟩, 0, 0⟩ PageList.pnil)).map (fun o => o.1) = some 1 ∧
    (__wt_rec_evict [] false false ⟨RecFlag.recNone, ⟨0, 0⟩, Page.mk ⟨9, PageType.rowLeaf, RefState.disk, none, none, false, RecFlag.recNone, false, false, ⟨0, 0⟩, 0, 0⟩ PageList.pnil⟩ [] true 0 false ⟨some 1, none, 0, false⟩
        (Page.mk ⟨1, PageType.rowInt, RefState.mem, some 1, none, false, RecFlag.recNone, false, false, ⟨0, 0⟩, 0, 0⟩ (PageList.pcons (Page.mk ⟨2, PageType.rowLeaf, RefState.reading, some 2, none, false, RecFlag.recNone, false, false, ⟨0, 0⟩, 0, 0⟩ PageList.pnil) PageList.pnil))).map (fun o => o.1) = some WT_ERROR ∧
    (__wt_rec_evict [] false false ⟨RecFlag.recNone, ⟨0, 0⟩, Page.mk ⟨9, PageType.rowLeaf, RefState.disk, none, none, false, RecFlag.recNone, false, false, ⟨0, 0⟩, 0, 0⟩ PageList.pnil⟩ [] true 0 false ⟨some 1, none, 0, false⟩
        (Page.mk ⟨1, PageType.rowInt, RefState.mem, some 1, none, false, RecFlag.recNone, false, false, ⟨0, 0⟩, 0, 0⟩ (PageList.pcons (Page.mk ⟨2, PageType.rowLeaf, RefState.mem, some 2, none, false, RecFlag.recNone, false, false, ⟨0, 0⟩, 0, 0⟩ PageList.pnil) PageList.pnil))).map (fun o => o.1) = some 1 ∧
    WT_ERROR ≠ 1 :=
  ⟨rfl, rfl, rfl, by norm_num [WT_ERROR]⟩

theorem chainIds_head (l : List WriteRes) (f : RecFlag) (pid : Nat)
    (sp : Page) : ∃ t, chainIds l f pid sp = pid :: t := by
  cases l with
  | nil => cases f <;> exact ⟨[], rfl⟩
  | cons w rest => cases f <;> exact ⟨_, rfl⟩

/-- C6: for every finite chain of reconciliation outcomes that reaches a
`REPLACE` or `EMPTY` outcome, the root-dirty-update recursion terminates
with OK; on each `SPLIT` the new internal page is written by the external
reconciler and the update re-invoked on it; at the end `btree.root_addr`
holds the final output, `btree.root_page` is null, and the old root and
every intermediate root have been passed to `page_out`. -/
theorem c6_root_split_convergence :
    ∀ (oracle : List WriteRes) (bt : BtreeSt) (d : PageData)
      (kids : PageList) (sp : Page),
      chainOk oracle d.flags = true →
      ∃ bt2 evs,
        __rec_root_dirty_update oracle bt (Page.mk d kids) sp =
          some (0, bt2, evs) ∧
        bt2.rootPage = none ∧
        (bt2.rootAddrPtr, bt2.rootAddrSize) =
          chainFinal oracle d.flags d.replace ∧
        bt2.rootUpdate = true ∧
        (∀ i ∈ chainIds oracle d.flags d.id sp, Ev.pageOut i ∈ evs) ∧
        (∀ i ∈ (chainIds oracle d.flags d.id sp).tail,
          Ev.recWrite i ∈ evs) := by
  intro oracle
  induction oracle with
  | nil =>
    intro bt d kids sp hok
    obtain ⟨devs, hdev⟩ := discard_some ((Page.mk d kids).psize + 1) d kids
      (by simp [Page.psize]; omega)
    have hpo := discard_pageOut _ d kids devs hdev
    cases hf : d.flags with
    | recEmpty =>
      refine ⟨(rootNonSplitStep bt d).1, (rootNonSplitStep bt d).2 ++ devs,
        ?_, ?_, ?_, ?_, ?_, ?_⟩
      · simp only [__rec_root_dirty_update]
        rw [if_neg (by simp [hf]), hdev]
      · simp [rootNonSplitStep, hf, __rec_root_addr_update]
      · simp [rootNonSplitStep, hf, __rec_root_addr_update, chainFinal]
      · simp [rootNonSplitStep, hf, __rec_root_addr_update]
      · intro i hi
        simp only [chainIds, hf, List.mem_singleton] at hi
        subst hi
        simp [List.mem_append, hpo]
      · intro i hi
        simp [chainIds, hf] at hi
    | recReplace =>
      refine ⟨(rootNonSplitStep bt d).1, (rootNonSplitStep bt d).2 ++ devs,
        ?_, ?_, ?_, ?_, ?_, ?_⟩
      · simp only [__rec_root_dirty_update]
        rw [if_neg (by simp [hf]), hdev]
      · simp [rootNonSplitStep, hf, __rec_root_addr_update]
      · simp [rootNonSplitStep, hf, __rec_root_addr_update, chainFinal]
      · simp [rootNonSplitStep, hf, __rec_root_addr_update]
      · intro i hi
        simp only [chainIds, hf, List.mem_singleton] at hi
        subst hi
        simp [List.mem_append, hpo]
      · intro i hi
        simp [chainIds, hf] at hi
    | recSplit => rw [hf] at hok; simp [chainOk] at hok
    | recNone => rw [hf] at hok; simp [chainOk] at hok
    | recSplitMerge => rw [hf] at hok; simp [chainOk] at hok
  | cons w rest ih =>
    intro bt d kids sp hok
    obtain ⟨devs, hdev⟩ := discard_some ((Page.mk d kids).psize + 1) d kids
      (by simp [Page.psize]; omega)
    have hpo := discard_pageOut _ d kids devs hdev
    cases hf : d.flags with
    | recEmpty =>
      refine ⟨(rootNonSplitStep bt d).1, (rootNonSplitStep bt d).2 ++ devs,
        ?_, ?_, ?_, ?_, ?_, ?_⟩
      · simp only [__rec_root_dirty_update]
        rw [if_neg (by simp [hf]), hdev]
      · simp [rootNonSplitStep, hf, __rec_root_addr_update]
      · simp [rootNonSplitStep, hf, __rec_root_addr_update, chainFinal]
      · simp [rootNonSplitStep, hf, __rec_root_addr_update]
      · intro i hi
        simp only [chainIds, hf, List.mem_singleton] at hi
        subst hi
        simp [List.mem_append, hpo]
      · intro i hi
        simp [chainIds, hf] at hi
    | recReplace =>
      refine ⟨(rootNonSplitStep bt d).1, (rootNonSplitStep bt d).2 ++ devs,
        ?_, ?_, ?_, ?_, ?_, ?_⟩
      · simp only [__rec_root_dirty_update]
        rw [if_neg (by simp [hf]), hdev]
      · simp [rootNonSplitStep, hf, __rec_root_addr_update]
      · simp [rootNonSplitStep, hf, __rec_root_addr_update, chainFinal]
      · simp [rootNonSplitStep, hf, __rec_root_addr_update]
      · intro i hi
        simp only [chainIds, hf, List.mem_singleton] at hi
        subst hi
        simp [List.mem_append, hpo]
      · intro i hi
        simp [chainIds, hf] at hi
    | recSplit =>
      rw [hf] at hok
      have hok2 : chainOk rest w.flags = true := by simpa [chainOk] using hok
      obtain ⟨bt2, evs2, heq, hrp, hfin, hru, hpo2, hwri2⟩ :=
        ih bt (applyWrite w { sp.data with flags := RecFlag.recNone, modified := true, hasModify := true }) sp.kids w.split (by simpa [applyWrite] using hok2)
      refine ⟨bt2, devs ++ Ev.recWrite sp.data.id :: evs2, ?_, hrp, ?_, hru,
        ?_, ?_⟩
      · simp only [__rec_root_dirty_update]
        rw [if_pos hf, hdev]
        dsimp only
        rw [heq]
      · simpa [chainFinal, hf, applyWrite] using hfin
      · intro i hi
        simp only [chainIds, hf, List.mem_cons] at hi
        rcases hi with hi | hi
        · subst hi
          simp [List.mem_append, hpo]
        · have := hpo2 i (by simpa [applyWrite] using hi)
          simp [List.mem_append, this]
      · intro i hi
        simp only [chainIds, hf, List.tail_cons] at hi
        obtain ⟨t, ht⟩ := chainIds_head rest w.flags sp.data.id w.split
        rw [ht] at hi
        simp only [List.mem_cons] at hi
        rcases hi with hi | hi
        · subst hi
          simp [List.mem_append]
        · have hwr := hwri2 i (by simp [applyWrite, ht]; exact hi)
          simp [List.mem_append, hwr]
    | recNone => rw [hf] at hok; simp [chainOk] at hok
    | recSplitMerge => rw [hf] at hok; simp [chainOk] at hok

/-- Witness for C6: a root whose reconciliation splits once and whose new
root is then replaced. -/
theorem c6_root_split_convergence_witness :
    chainOk [⟨RecFlag.recReplace, ⟨77, 88⟩, Page.mk ⟨9, PageType.rowLeaf, RefState.disk, none, none, false, RecFlag.recNone, false, false, ⟨0, 0⟩, 0, 0⟩ PageList.pnil⟩] (⟨1, PageType.rowInt, RefState.locked, none, none, false, RecFlag.recSplit, false, true, ⟨0, 0⟩, 2, 0⟩ : PageData).flags = true ∧
    (∃ bt2 evs,
      __rec_root_dirty_update [⟨RecFlag.recReplace, ⟨77, 88⟩, Page.mk ⟨9, PageType.rowLeaf, RefState.disk, none, none, false, RecFlag.recNone, false, false, ⟨0, 0⟩, 0, 0⟩ PageList.pnil⟩] ⟨some 1, some 5, 6, false⟩ (Page.mk ⟨1, PageType.rowInt, RefState.locked, none, none, false, RecFlag.recSplit, false, true, ⟨0, 0⟩, 2, 0⟩ PageList.pnil) (Page.mk ⟨2, PageType.rowInt, RefState.locked, none, none, false, RecFlag.recNone, false, false, ⟨0, 0⟩, 0, 0⟩ PageList.pnil) =
        some (0, bt2, evs) ∧
      bt2.rootPage = none ∧
      (bt2.rootAddrPtr, bt2.rootAddrSize) =
        chainFinal [⟨RecFlag.recReplace, ⟨77, 88⟩, Page.mk ⟨9, PageType.rowLeaf, RefState.disk, none, none, false, RecFlag.recNone, false, false, ⟨0, 0⟩, 0, 0⟩ PageList.pnil⟩] (⟨1, PageType.rowInt, RefState.locked, none, none, false, RecFlag.recSplit, false, true, ⟨0, 0⟩, 2, 0⟩ : PageData).flags (⟨1, PageType.rowInt, RefState.locked, none, none, false, RecFlag.recSplit, false, true, ⟨0, 0⟩, 2, 0⟩ : PageData).replace ∧
      bt2.rootUpdate = true ∧
      (∀ i ∈ chainIds [⟨RecFlag.recReplace, ⟨77, 88⟩, Page.mk ⟨9, PageType.rowLeaf, RefState.disk, none, none, false, RecFlag.recNone, false, false, ⟨0, 0⟩, 0, 0⟩ PageList.pnil⟩] (⟨1, PageType.rowInt, RefState.locked, none, none, false, RecFlag.recSplit, false, true, ⟨0, 0⟩, 2, 0⟩ : PageData).flags 1 (Page.mk ⟨2, PageType.rowInt, RefState.locked, none, none, false, RecFlag.recNone, false, false, ⟨0, 0⟩, 0, 0⟩ PageList.pnil), Ev.pageOut i ∈ evs) ∧
      (∀ i ∈ (chainIds [⟨RecFlag.recReplace, ⟨77, 88⟩, Page.mk ⟨9, PageType.rowLeaf, RefState.disk, none, none, false, RecFlag.recNone, false, false, ⟨0, 0⟩, 0, 0⟩ PageList.pnil⟩] (⟨1, PageType.rowInt, RefState.locked, none, none, false, RecFlag.recSplit, false, true, ⟨0, 0⟩, 2, 0⟩ : PageData).flags 1 (Page.mk ⟨2, PageType.rowInt, RefState.locked, none, none, false, RecFlag.recNone, false, false, ⟨0, 0⟩, 0, 0⟩ PageList.pnil)).tail,
        Ev.recWrite i ∈ evs)) :=
  ⟨rfl,
    c6_root_split_convergence [⟨RecFlag.recReplace, ⟨77, 88⟩, Page.mk ⟨9, PageType.rowLeaf, RefState.disk, none, none, false, RecFlag.recNone, false, false, ⟨0, 0⟩, 0, 0⟩ PageList.pnil⟩] ⟨some 1, some 5, 6, false⟩ ⟨1, PageType.rowInt, RefState.locked, none, none, false, RecFlag.recSplit, false, true, ⟨0, 0⟩, 2, 0⟩ PageList.pnil (Page.mk ⟨2, PageType.rowInt, RefState.locked, none, none, false, RecFlag.recNone, false, false, ⟨0, 0⟩, 0, 0⟩ PageList.pnil) rfl⟩

end RecEvict
